import Mathlib

/-!
Verification development for the ndr_core template expression and markup
pre-rendering engine.

The Python sources under `ndr_core/ndr_templatetags/template_string.py`,
`ndr_core/ndr_templatetags/abstract_filter.py`,
`ndr_core/ndr_templatetags/filters.py` and `ndr_core/ndr_template_tags.py`
are shallowly embedded below.  Text is modelled as `List Char` (named `Str`),
Python exceptions as an explicit error type threaded through `Except`, and
all regex-driven scanning loops as executable scanners translated from the
concrete regular expressions in the source.

Modelling boundary: filters whose rendering needs Django collaborators
(database lookups, template rendering, file IO) are outside the embedded
filter registry, mirroring the specification's collaborator boundary; the
pre-renderer's UI-element / page-URL / link-element lookups are abstracted
into an explicit collaborator record.  `html.unescape` is modelled for
numeric character references and the five predefined named entities, and
`json` pretty-printing for the integer/string/array/object fragment; no
claim below exercises content outside these fragments.
-/

/-- Text is modelled as a list of characters (Python `str`, ASCII fragment). -/
abbrev Str := List Char

/-- Converts a Lean string literal to the character-list model. -/
def lit (s : String) : Str := s.data

/-- Decides whether `p` is a prefix of `s`. -/
def startsWithL : Str → Str → Bool
  | [], _ => true
  | _ :: _, [] => false
  | p :: ps, c :: cs => p == c && startsWithL ps cs

/-- Decides whether `p` occurs as a contiguous substring of `s`. -/
def occursL (p : Str) : Str → Bool
  | [] => startsWithL p []
  | c :: cs => startsWithL p (c :: cs) || occursL p cs

/-- Python `str.split(sep)` for a single-character separator. -/
def splitOnCharL (sep : Char) : Str → List Str
  | [] => [[]]
  | c :: cs =>
    if c == sep then [] :: splitOnCharL sep cs
    else match splitOnCharL sep cs with
      | [] => [[c]]
      | p :: ps => (c :: p) :: ps

/-- Worker for `replaceAllL`: the fuel only bounds the recursion depth
(one unit per character consumed) so that the function is structurally
recursive and reduces by `rfl`; `replaceAllL` supplies enough fuel that
the exhaustion branch is unreachable. -/
def replaceAllGo : Nat → Str → Str → Str → Str
  | _, [], _, _ => []
  | 0, s, _, _ => s
  | fuel + 1, c :: cs, old, new =>
    if !old.isEmpty && startsWithL old (c :: cs) then
      new ++ replaceAllGo fuel ((c :: cs).drop old.length) old new
    else
      c :: replaceAllGo fuel cs old new

/-- Python `str.replace(old, new)` (all occurrences, left to right). -/
def replaceAllL (s : Str) (old new : Str) : Str :=
  replaceAllGo s.length s old new

/-- Python `str.replace(old, new, 1)` (first occurrence only). -/
def replaceFirstL (s : Str) (old new : Str) : Str :=
  match s with
  | [] => []
  | c :: cs =>
    if !old.isEmpty && startsWithL old (c :: cs) then
      new ++ (c :: cs).drop old.length
    else
      c :: replaceFirstL cs old new

/-- Characters treated as whitespace by Python `str.strip()` (ASCII fragment). -/
def isPyWs (c : Char) : Bool :=
  c == ' ' || c == '\t' || c == '\n' || c == '\r' || c == '\x0b' || c == '\x0c'

/-- Python `str.strip()` (ASCII whitespace fragment). -/
def stripL (s : Str) : Str :=
  (s.dropWhile isPyWs).reverse.dropWhile isPyWs |>.reverse

/-- Python `str.strip(chars)` for a single strip character. -/
def stripCharL (ch : Char) (s : Str) : Str :=
  (s.dropWhile (· == ch)).reverse.dropWhile (· == ch) |>.reverse

/-- Python `str.lstrip()` (ASCII whitespace fragment). -/
def lstripL (s : Str) : Str := s.dropWhile isPyWs

/-- Python `str.lower()` (ASCII fragment). -/
def lowerL (s : Str) : Str := s.map Char.toLower

/-- Python `str.upper()` (ASCII fragment). -/
def upperL (s : Str) : Str := s.map Char.toUpper

/-- Decides whether a character is an ASCII decimal digit. -/
def isDigitCh (c : Char) : Bool := '0' ≤ c && c ≤ '9'

/-- Python `str.isdigit()` (ASCII fragment): non-empty and all digits. -/
def isPyDigit (s : Str) : Bool := !s.isEmpty && s.all isDigitCh

/-- Python `int(s)` for a string of ASCII digits. -/
def strToNat (s : Str) : Nat :=
  s.foldl (fun acc c => acc * 10 + (c.toNat - '0'.toNat)) 0

/-- Digit characters of a natural number, most significant first
(helper for `natStr`, written with explicit fuel so that it reduces
by `rfl` in the kernel). -/
def natStrAux : Nat → Nat → Str
  | 0, _ => []
  | _ + 1, 0 => []
  | fuel + 1, n + 1 =>
    natStrAux fuel ((n + 1) / 10) ++ [Char.ofNat ('0'.toNat + (n + 1) % 10)]

/-- Python `str(n)` for a non-negative integer. -/
def natStr (n : Nat) : Str :=
  match n with
  | 0 => ['0']
  | n + 1 => natStrAux (n + 1) (n + 1)

/-- Python `\w` character class (ASCII fragment: letters, digits, underscore). -/
def isWordChar (c : Char) : Bool :=
  ('a' ≤ c && c ≤ 'z') || ('A' ≤ c && c ≤ 'Z') || isDigitCh c || c == '_'

/-- Association-list lookup (Python `dict[k]` access returning `Option`). -/
def alistGet (kvs : List (Str × α)) (k : Str) : Option α :=
  match kvs with
  | [] => none
  | (k', v) :: rest => if k' == k then some v else alistGet rest k

/-- Association-list assignment (Python `dict[k] = v`: overwrite in place,
append at the end when the key is new, preserving insertion order). -/
def alistSet (kvs : List (Str × α)) (k : Str) (v : α) : List (Str × α) :=
  match kvs with
  | [] => [(k, v)]
  | (k', v') :: rest =>
    if k' == k then (k, v) :: rest else (k', v') :: alistSet rest k v

/-- The keys of an association list in order. -/
def alistKeys (kvs : List (Str × α)) : List Str := kvs.map Prod.fst

/-- Intercalates a separator between the strings of a list (Python `sep.join`). -/
def joinWith (sep : Str) : List Str → Str
  | [] => []
  | [s] => s
  | s :: rest => s ++ sep ++ joinWith sep rest

/-- A JSON-like data value: the shape of the data documents that template
variables are evaluated against (mappings, sequences, strings, integers,
booleans, null).  Floating-point leaves are outside the model. -/
inductive Value where
  | strV (s : Str)
  | intV (n : Int)
  | boolV (b : Bool)
  | noneV
  | listV (xs : List Value)
  | objV (kvs : List (Str × Value))

/-- The Python exceptions that flow through the engine.  `preRender` carries
the message of an `ndr_core.exceptions.PreRenderError`; `nonTermination` is a
model-only sentinel produced when the embedded pre-renderer detects that the
Python original would loop forever (see `wrapCellsInRows`). -/
inductive PyErr where
  | keyError
  | indexError
  | valueError
  | typeError
  | attributeError
  | preRender (msg : Str)
  | nonTermination
deriving DecidableEq

/-- Python `str(n)` for an integer. -/
def intStr (n : Int) : Str :=
  match n with
  | .ofNat m => natStr m
  | .negSucc m => '-' :: natStr (m + 1)

mutual

/-- Python `str(v)`.  For strings this is the string itself; containers
fall back to `repr`-style rendering as in CPython. -/
def pyStr : Value → Str
  | .strV s => s
  | .intV n => intStr n
  | .boolV b => if b then lit "True" else lit "False"
  | .noneV => lit "None"
  | .listV xs => '[' :: joinWith (lit ", ") (pyReprList xs) ++ [']']
  | .objV kvs => '\x7b' :: joinWith (lit ", ") (pyReprPairs kvs) ++ ['\x7d']

/-- Python `repr(v)` (ASCII fragment; strings are rendered with single
quotes and without escape handling, which suffices for the data used in
the theorems below). -/
def pyRepr : Value → Str
  | .strV s => '\'' :: s ++ ['\'']
  | .intV n => intStr n
  | .boolV b => if b then lit "True" else lit "False"
  | .noneV => lit "None"
  | .listV xs => '[' :: joinWith (lit ", ") (pyReprList xs) ++ [']']
  | .objV kvs => '\x7b' :: joinWith (lit ", ") (pyReprPairs kvs) ++ ['\x7d']

/-- Helper: `repr` of each element of a list. -/
def pyReprList : List Value → List Str
  | [] => []
  | x :: xs => pyRepr x :: pyReprList xs

/-- Helper: `repr(k): repr(v)` for each pair of a mapping. -/
def pyReprPairs : List (Str × Value) → List Str
  | [] => []
  | (k, v) :: rest => ('\'' :: k ++ ['\''] ++ lit ": " ++ pyRepr v) :: pyReprPairs rest

end

/-- JSON string escaping for `jsonDumps` (backslash and double quote;
ASCII content assumed, matching the data used below). -/
def jsonEscape : Str → Str
  | [] => []
  | c :: cs =>
    if c == '\\' || c == '"' then '\\' :: c :: jsonEscape cs
    else c :: jsonEscape cs

mutual

/-- Python `json.dumps(v)` with default separators, for the
integer/string/boolean/null/array/object fragment of JSON. -/
def jsonDumps : Value → Str
  | .strV s => '"' :: jsonEscape s ++ ['"']
  | .intV n => intStr n
  | .boolV b => if b then lit "true" else lit "false"
  | .noneV => lit "null"
  | .listV xs => '[' :: joinWith (lit ", ") (jsonDumpsList xs) ++ [']']
  | .objV kvs => '\x7b' :: joinWith (lit ", ") (jsonDumpsPairs kvs) ++ ['\x7d']

/-- Helper: `json.dumps` of each element of an array. -/
def jsonDumpsList : List Value → List Str
  | [] => []
  | x :: xs => jsonDumps x :: jsonDumpsList xs

/-- Helper: `"k": v` for each pair of an object. -/
def jsonDumpsPairs : List (Str × Value) → List Str
  | [] => []
  | (k, v) :: rest =>
    ('"' :: jsonEscape k ++ ['"'] ++ lit ": " ++ jsonDumps v) :: jsonDumpsPairs rest

end

/-- Python `html.escape(s)` (quote=True): `&`, `<`, `>`, `"`, `'`. -/
def htmlEscape : Str → Str
  | [] => []
  | c :: cs =>
    (if c == '&' then lit "&amp;"
     else if c == '<' then lit "&lt;"
     else if c == '>' then lit "&gt;"
     else if c == '"' then lit "&quot;"
     else if c == '\'' then lit "&#x27;"
     else [c]) ++ htmlEscape cs

/-- Decides whether a character is an ASCII hexadecimal digit. -/
def isHexCh (c : Char) : Bool :=
  isDigitCh c || ('a' ≤ c && c ≤ 'f') || ('A' ≤ c && c ≤ 'F')

/-- Numeric value of an ASCII hexadecimal digit. -/
def hexVal (c : Char) : Nat :=
  if isDigitCh c then c.toNat - '0'.toNat
  else if 'a' ≤ c && c ≤ 'f' then c.toNat - 'a'.toNat + 10
  else c.toNat - 'A'.toNat + 10

/-- Value of a string of ASCII hexadecimal digits. -/
def hexToNat (s : Str) : Nat :=
  s.foldl (fun acc c => acc * 16 + hexVal c) 0

/-- The predefined named character references recognised by the model of
`html.unescape` (the claims below only exercise these and numeric
references; Python's full HTML5 entity table is larger). -/
def namedEntity (name : Str) : Option Char :=
  if name == lit "amp" then some '&'
  else if name == lit "lt" then some '<'
  else if name == lit "gt" then some '>'
  else if name == lit "quot" then some '"'
  else if name == lit "apos" then some '\''
  else if name == lit "nbsp" then some '\xa0'
  else none

/-- One resolution attempt at a `&...` occurrence: returns the decoded
character and the remaining text, or `none` when the text after `&` does
not form a recognised character reference. -/
def unescapeEntityAt (s : Str) : Option (Char × Str) :=
  match s with
  | '#' :: rest =>
    match rest with
    | x :: rest2 =>
      if x == 'x' || x == 'X' then
        let digs := rest2.takeWhile isHexCh
        let after := rest2.dropWhile isHexCh
        if digs.isEmpty then none
        else
          let n := hexToNat digs
          if h : n.isValidChar then
            some (Char.ofNatAux n h, match after with | ';' :: a => a | a => a)
          else none
      else
        let digs := rest.takeWhile isDigitCh
        let after := rest.dropWhile isDigitCh
        if digs.isEmpty then none
        else
          let n := strToNat digs
          if h : n.isValidChar then
            some (Char.ofNatAux n h, match after with | ';' :: a => a | a => a)
          else none
    | [] => none
  | _ =>
    let name := s.takeWhile (fun c => isWordChar c)
    match s.dropWhile (fun c => isWordChar c) with
    | ';' :: after =>
      match namedEntity name with
      | some c => some (c, after)
      | none => none
    | _ => none

/-- Worker for `htmlUnescape` with explicit fuel (one unit per character
consumed), so the function is structurally recursive; `htmlUnescape`
supplies enough fuel that the exhaustion branch is unreachable. -/
def htmlUnescapeGo : Nat → Str → Str
  | _, [] => []
  | 0, s => s
  | fuel + 1, '&' :: rest =>
    match unescapeEntityAt rest with
    | some (c, after) => c :: htmlUnescapeGo fuel after
    | none => '&' :: htmlUnescapeGo fuel rest
  | fuel + 1, c :: cs => c :: htmlUnescapeGo fuel cs

/-- Python `html.unescape(s)` (single left-to-right pass replacing
character references; see the modelling note on `namedEntity`). -/
def htmlUnescape (s : Str) : Str := htmlUnescapeGo s.length s

/-- Splits at the first occurrence of `sep`, returning the text before and
after it (Python `str.split(sep, 1)` when `sep` occurs). -/
def splitOnFirst (sep : Char) : Str → Str × Str
  | [] => ([], [])
  | c :: cs =>
    if c == sep then ([], cs)
    else
      let (a, b) := splitOnFirst sep cs
      (c :: a, b)

/-- Worker for `splitFWQ`, carrying the scanner state of
`TemplateStringVariable._split_filter_with_quotes`: the previous character
(for the backslash-escape check `text[i-1] == '\\'`), whether the cursor is
inside a quoted span, the active quote character, the part accumulated so
far, and the completed parts. -/
def splitFWQGo (delim : Char) : Str → Option Char → Bool → Option Char → Str → List Str →
    List Str
  | [], _, _, _, cur, parts =>
    if (stripL cur).isEmpty then parts else parts ++ [stripL cur]
  | c :: rest, prev, inQuotes, quoteChar, cur, parts =>
    if (c == '"' || c == '\'') && !inQuotes then
      splitFWQGo delim rest (some c) true (some c) (cur ++ [c]) parts
    else if some c == quoteChar && inQuotes then
      if prev == some '\\' then
        splitFWQGo delim rest (some c) inQuotes quoteChar (cur ++ [c]) parts
      else
        splitFWQGo delim rest (some c) false none (cur ++ [c]) parts
    else if c == delim && !inQuotes then
      if (stripL cur).isEmpty then
        splitFWQGo delim rest (some c) inQuotes quoteChar [] parts
      else
        splitFWQGo delim rest (some c) inQuotes quoteChar [] (parts ++ [stripL cur])
    else
      splitFWQGo delim rest (some c) inQuotes quoteChar (cur ++ [c]) parts

/-- `TemplateStringVariable._split_filter_with_quotes`: split on a delimiter
while respecting quoted spans (parts are stripped; empty parts dropped). -/
def splitFWQ (text : Str) (delim : Char) : List Str :=
  splitFWQGo delim text none false none [] []

/-- `TemplateStringVariable._remove_quotes`: strip, then remove one pair of
matching surrounding quotes if present. -/
def removeQuotes (text : Str) : Str :=
  let t := stripL text
  if t.length ≥ 2 &&
      ((t.head? == some '"' && t.getLast? == some '"') ||
       (t.head? == some '\'' && t.getLast? == some '\'')) then
    (t.drop 1).dropLast
  else t

/-- Builds one filter's configuration dict from the split option segments:
`k=v` segments become named options (first `=` splits, value unquoted),
other segments become positional options keyed `o<index>` (index = position
in the split list, per `enumerate(configs)` in `parse_variable`). -/
def buildFilterConfig : List Str → Nat → List (Str × Str) → List (Str × Str)
  | [], _, acc => acc
  | cfg :: rest, cn, acc =>
    if cfg.contains '=' then
      let (k, v) := splitOnFirst '=' cfg
      buildFilterConfig rest (cn + 1) (alistSet acc k (removeQuotes v))
    else
      buildFilterConfig rest (cn + 1) (alistSet acc (lit "o" ++ natStr cn) (removeQuotes cfg))

/-- A filter configuration: insertion-ordered string-to-string mapping. -/
abbrev FilterConfig := List (Str × Str)

/-- Parses one filter segment (`name[:options]`) of a variable.  An
all-whitespace segment makes `p[0]` fail in Python with `IndexError`.
Only `p[1]` is consulted for options, as in the source. -/
def parseFilterSegment (seg : Str) : Except PyErr (Str × FilterConfig) :=
  match splitFWQ seg ':' with
  | [] => .error .indexError
  | name :: restParts =>
    match restParts with
    | [] => .ok (name, [])
    | blob :: _ => .ok (name, buildFilterConfig (splitFWQ blob ',') 0 [])

/-- Recognises the plain-identifier base-path shape `^(\w+)$`. -/
def plainShape (s : Str) : Bool := !s.isEmpty && s.all isWordChar

/-- Recognises the dot-chain base-path shape `^(\w+)(\.\w+)+$`. -/
def dotShape (s : Str) : Bool :=
  let ps := splitOnCharL '.' s
  decide (ps.length ≥ 2) && ps.all plainShape

/-- Worker parsing the `(\[\w+?\])+$` tail of a bracket-chain base path,
with fuel (one unit per character) for structural recursion. -/
def bracketTailGo : Nat → Str → Option (List Str)
  | _, [] => some []
  | 0, _ => none
  | fuel + 1, '[' :: rest =>
    let w := rest.takeWhile isWordChar
    match rest.dropWhile isWordChar with
    | ']' :: rest2 =>
      if w.isEmpty then none
      else (bracketTailGo fuel rest2).map (w :: ·)
    | _ => none
  | _ + 1, _ => none

/-- Recognises the bracket-chain shape `^(\w+)(\[\w+?\])+$` and returns the
flattened key list (`get_keys_from_bracket_string`). -/
def bracketShapeKeys (s : Str) : Option (List Str) :=
  let head := s.takeWhile isWordChar
  if head.isEmpty then none
  else
    match bracketTailGo s.length (s.dropWhile isWordChar) with
    | some (g :: gs) => some (head :: g :: gs)
    | _ => none

/-- `TemplateStringVariable.get_keys`: bracket chain, then dot chain, then
plain identifier; otherwise `ValueError("Could not parse variable")`. -/
def getKeysOf (varName : Str) : Except PyErr (List Str) :=
  match bracketShapeKeys varName with
  | some ks => .ok ks
  | none =>
    if dotShape varName then .ok (splitOnCharL '.' varName)
    else if plainShape varName then .ok [varName]
    else .error .valueError

/-- The parsed form of one template variable
(`TemplateStringVariable`): raw text, base-path name, resolved key list,
filter names, and per-filter configurations. -/
structure TVariable where
  raw : Str
  varName : Str
  keys : List Str
  valueFilters : List Str
  filterConfigs : List FilterConfig
deriving DecidableEq

/-- Parses the filter segments of a variable into parallel name/config
lists (the loop body of `parse_variable`). -/
def parseFilterSegs : List Str → Except PyErr (List Str × List FilterConfig)
  | [] => .ok ([], [])
  | seg :: rest => do
    let (name, cfg) ← parseFilterSegment seg
    let (names, cfgs) ← parseFilterSegs rest
    .ok (name :: names, cfg :: cfgs)

/-- `TemplateStringVariable.__init__` / `parse_variable`: split the raw
variable on `|` into base path and filter segments, parse each filter
segment, and resolve the base path's key list via `get_keys`. -/
def mkTVariable (varText : Str) : Except PyErr TVariable :=
  if varText.contains '|' then
    match splitOnCharL '|' varText with
    | [] => .error .indexError
    | varName :: filterSegs => do
      let (names, cfgs) ← parseFilterSegs filterSegs
      let keys ← getKeysOf varName
      .ok { raw := varText, varName := varName, keys := keys,
            valueFilters := names, filterConfigs := cfgs }
  else do
    let keys ← getKeysOf varText
    .ok { raw := varText, varName := varText, keys := keys,
          valueFilters := [], filterConfigs := [] }

/-- Scans a replacement-field name as `string.Formatter().parse` does:
up to `:`, `!` or `}` outside square brackets.  Returns the field text,
whether a format spec follows, and the remaining input.  A `!` introduces a
single conversion character which must be followed by `:` or `}`. -/
def scanField : Nat → Str → Bool → Str → Except PyErr (Str × Bool × Str)
  | 0, _, _, _ => .error .valueError
  | _ + 1, [], _, _ => .error .valueError
  | fuel + 1, c :: cs, inBr, acc =>
    if c == '[' then scanField fuel cs true (acc ++ [c])
    else if c == ']' then scanField fuel cs false (acc ++ [c])
    else if !inBr && c == '\x7d' then .ok (acc, false, cs)
    else if !inBr && c == ':' then .ok (acc, true, cs)
    else if !inBr && c == '!' then
      match cs with
      | [] => .error .valueError
      | _ :: cs2 =>
        match cs2 with
        | ':' :: cs3 => .ok (acc, true, cs3)
        | '\x7d' :: cs3 => .ok (acc, false, cs3)
        | _ => .error .valueError
    else if c == '\x7b' then .error .valueError
    else scanField fuel cs inBr (acc ++ [c])

/-- Scans a format spec up to the matching `}` (brace depth counted). -/
def scanSpec : Nat → Str → Nat → Str → Except PyErr (Str × Str)
  | 0, _, _, _ => .error .valueError
  | _ + 1, [], _, _ => .error .valueError
  | fuel + 1, c :: cs, depth, acc =>
    if c == '\x7d' then
      if depth == 0 then .ok (acc, cs)
      else scanSpec fuel cs (depth - 1) (acc ++ [c])
    else if c == '\x7b' then scanSpec fuel cs (depth + 1) (acc ++ [c])
    else scanSpec fuel cs depth (acc ++ [c])

/-- Worker for `parseFmtBodies`: walks the template like
`string.Formatter().parse`, collecting `(field, spec)` pairs and raising
`ValueError` on a lone `}`, an unterminated field, or a stray `{` inside a
field name. -/
def fmtGo : Nat → Str → Except PyErr (List (Str × Str))
  | 0, _ => .error .valueError
  | _, [] => .ok []
  | fuel + 1, '\x7d' :: rest =>
    match rest with
    | '\x7d' :: rest2 => fmtGo fuel rest2
    | _ => .error .valueError
  | fuel + 1, '\x7b' :: rest =>
    match rest with
    | '\x7b' :: rest2 => fmtGo fuel rest2
    | _ => do
      let (field, hasSpec, rest2) ← scanField fuel rest false []
      if hasSpec then do
        let (spec, rest3) ← scanSpec fuel rest2 0 []
        let pairs ← fmtGo fuel rest3
        .ok ((field, spec) :: pairs)
      else do
        let pairs ← fmtGo fuel rest2
        .ok ((field, []) :: pairs)
  | fuel + 1, _ :: cs => fmtGo fuel cs

/-- All `(field_name, format_spec)` pairs of the replacement fields of a
template string, in order (`string.Formatter().parse`, literals dropped). -/
def parseFmtBodies (s : Str) : Except PyErr (List (Str × Str)) :=
  fmtGo (s.length + 1) s

/-- The raw variable bodies extracted by `TemplateString.get_variables`:
non-empty field names, re-joined with `:` and the spec when the spec is
non-empty. -/
def extractBodies (s : Str) : Except PyErr (List Str) := do
  let pairs ← parseFmtBodies s
  .ok (pairs.filterMap fun p =>
    if p.1.isEmpty then none
    else some (if p.2.isEmpty then p.1 else p.1 ++ ':' :: p.2))

/-- The construction loop of `TemplateString.get_variables`: parse each
body in order; the first failure aborts the whole extraction. -/
def mapVars : List Str → Except PyErr (List TVariable)
  | [] => .ok []
  | b :: rest => do
    let v ← mkTVariable b
    let vs ← mapVars rest
    .ok (v :: vs)

/-- `TemplateString.get_variables`: parse every extracted body into a
`TVariable`; a `ValueError` from any parse aborts the whole extraction
(re-raised as `ValueError("Could not parse string")`). -/
def getVariablesE (s : Str) : Except PyErr (List TVariable) := do
  let bodies ← extractBodies s
  mapVars bodies

/-- The state of a constructed `TemplateString`. -/
structure TemplateStringT where
  string : Str
  data : Value
  varList : List TVariable
  showErrors : Bool

/-- `TemplateString.__init__`: HTML-unescape the template text, then extract
and parse all variables (any parse failure aborts construction). -/
def mkTemplateString (s : Str) (data : Value) (showErrors : Bool) :
    Except PyErr TemplateStringT := do
  let unescaped := htmlUnescape s
  let vars ← getVariablesE unescaped
  .ok { string := unescaped, data := data, varList := vars, showErrors := showErrors }

/-- Python `value[key]` for a string key: mapping lookup (`KeyError` on a
miss); lists, strings and scalars are not indexable by a string
(`TypeError`). -/
def pyGetItem (v : Value) (k : Str) : Except PyErr Value :=
  match v with
  | .objV kvs =>
    match alistGet kvs k with
    | some x => .ok x
    | none => .error .keyError
  | _ => .error .typeError

/-- Python `value[i]` for an int key: positional indexing of sequences and
strings (`IndexError` out of range); a mapping with string keys misses
(`KeyError`); scalars are not subscriptable (`TypeError`). -/
def pyGetItemInt (v : Value) (i : Nat) : Except PyErr Value :=
  match v with
  | .listV xs =>
    match xs.get? i with
    | some x => .ok x
    | none => .error .indexError
  | .strV s =>
    match s.get? i with
    | some c => .ok (.strV [c])
    | none => .error .indexError
  | .objV _ => .error .keyError
  | _ => .error .typeError

/-- One step of `TemplateStringVariable._get_nested_value`'s loop: index by
the key; on `TypeError` retry with `int(key)` if the key is all digits
(`IndexError` re-raised, other errors propagate out of the handler), and
otherwise silently keep the current value; `KeyError` is re-raised. -/
def nestedStep (v : Value) (k : Str) : Except PyErr Value :=
  match pyGetItem v k with
  | .ok v' => .ok v'
  | .error .typeError =>
    if isPyDigit k then
      match pyGetItemInt v (strToNat k) with
      | .ok v' => .ok v'
      | .error .indexError => .error .indexError
      | .error e => .error e
    else .ok v
  | .error .keyError => .error .keyError
  | .error e => .error e

/-- The key walk of `_get_nested_value` starting from an intermediate
value. -/
def getNestedFrom : Value → List Str → Except PyErr Value
  | v, [] => .ok v
  | v, k :: rest =>
    match nestedStep v k with
    | .ok v' => getNestedFrom v' rest
    | .error e => .error e

/-- `TemplateStringVariable._get_nested_value`. -/
def getNestedValue (v : TVariable) (data : Value) : Except PyErr Value :=
  getNestedFrom data v.keys

/-- `TemplateStringVariable.get_raw_value`: nested variables walk the key
list; single-key variables index the data directly (`KeyError` re-raised
with a message, other exceptions uncaught). -/
def getRawValue (v : TVariable) (data : Value) : Except PyErr Value :=
  if v.keys.length > 1 then getNestedValue v data
  else
    match pyGetItem data v.varName with
    | .ok x => .ok x
    | .error e => .error e

/-- The filter implementations embedded from `filters.py`.  Filters whose
rendering requires Django collaborators (`fieldify`, `fieldinfo`, `badge`,
`img`, `linkify`, `map`, …) are outside the embedded registry, per the
specification's collaborator boundary; no claim below exercises them. -/
inductive FilterClass where
  | stringF
  | boolF
  | listF
  | defaultF
deriving DecidableEq

/-- `get_get_filter_class` restricted to the embedded registry; unknown
names raise `ValueError("Filter ... not found.")`. -/
def getFilterClass (name : Str) : Except PyErr FilterClass :=
  if name == lit "lower" || name == lit "upper" || name == lit "title" ||
      name == lit "capitalize" then .ok .stringF
  else if name == lit "bool" then .ok .boolF
  else if name == lit "list" then .ok .listF
  else if name == lit "default" then .ok .defaultF
  else .error .valueError

/-- `needed_options` of each embedded filter. -/
def neededOptions : FilterClass → List Str
  | .boolF => [lit "o0", lit "o1"]
  | _ => []

/-- `needed_attributes` of each embedded filter (all empty, as in the
source, where every filter returns `[]`). -/
def neededAttributes : FilterClass → List Str := fun _ => []

/-- `allowed_attributes` of each embedded filter. -/
def allowedAttributes : FilterClass → List Str
  | .listF => [lit "type", lit "class"]
  | .defaultF => [lit "value"]
  | _ => []

/-- `ListTemplateFilter.processes_list_as_whole` (declared `True` in the
source, with the docstring "This filter needs to process the entire list at
once"); no other embedded filter declares it. -/
def processesListAsWhole : FilterClass → Bool
  | .listF => true
  | _ => false

/-- `AbstractFilter.get_configuration`: mapping lookup, `None` on a miss. -/
def getConfiguration (cfg : FilterConfig) (name : Str) : Option Str :=
  alistGet cfg name

/-- Python truthiness of a configuration value (`None` and the empty string
are falsy; every other string is truthy). -/
def configTruthy : Option Str → Bool
  | none => false
  | some v => !v.isEmpty

/-- The required-options / required-attributes loop of
`AbstractFilter.check_configuration`: every listed key must be configured
with a truthy value. -/
def requireAll (cfg : FilterConfig) : List Str → Except PyErr Unit
  | [] => .ok ()
  | o :: rest =>
    if configTruthy (getConfiguration cfg o) then requireAll cfg rest
    else .error .valueError

/-- Whether a configuration key is legal for a filter:
`allowed ∪ needed_attributes ∪ needed_options ∪ {default, subfield, limit}`. -/
def legalKey (cls : FilterClass) (k : Str) : Bool :=
  (allowedAttributes cls).contains k || (neededAttributes cls).contains k ||
    (neededOptions cls).contains k || k == lit "default" || k == lit "subfield" ||
    k == lit "limit"

/-- The unknown-key loop of `check_configuration`. -/
def checkKeys (cls : FilterClass) : List Str → Except PyErr Unit
  | [] => .ok ()
  | k :: rest =>
    if legalKey cls k then checkKeys cls rest else .error .valueError

/-- `AbstractFilter.check_configuration`, run eagerly by
`AbstractFilter.__init__`: required options, then required attributes, then
rejection of unknown keys (`ValueError`, the code-level form of the spec's
`FilterConfigurationError`). -/
def checkConfiguration (cls : FilterClass) (cfg : FilterConfig) : Except PyErr Unit := do
  let _ ← requireAll cfg (neededOptions cls)
  let _ ← requireAll cfg (neededAttributes cls)
  checkKeys cls (alistKeys cfg)

/-- Modelled from the spec: `ndr_core.utils.get_nested_value` is imported by
`abstract_filter.py` but `ndr_core/utils.py` is not among the provided
sources.  Per the specification's "subfield extraction" (§4.3), it resolves
a dot-separated path inside a mapping, failing with `KeyError` on a missing
key and `TypeError` when stepping into a non-mapping. -/
def utilGetNestedValue (v : Value) (path : Str) : Except PyErr Value :=
  go v (splitOnCharL '.' path)
where
  /-- Walks the dot-separated keys. -/
  go : Value → List Str → Except PyErr Value
  | v, [] => .ok v
  | .objV kvs, k :: rest =>
    match alistGet kvs k with
    | some x => go x rest
    | none => .error .keyError
  | _, _ :: _ => .error .typeError

/-- `AbstractFilter.get_value`: the raw value, with subfield extraction when
a `subfield` is configured and the value is a mapping (`KeyError` and
`TypeError` fall back to the raw value). -/
def filterGetValue (value : Value) (cfg : FilterConfig) : Value :=
  match value with
  | .objV kvs =>
    if configTruthy (getConfiguration cfg (lit "subfield")) then
      match getConfiguration cfg (lit "subfield") with
      | some sub =>
        match utilGetNestedValue (.objV kvs) sub with
        | .ok nv => .strV (pyStr nv)
        | .error _ => .objV kvs
      | none => .objV kvs
    else .objV kvs
  | v => v

/-- Python `str.title()` (ASCII fragment): a cased character is uppercased
when the previous character is not cased, lowercased otherwise. -/
def titleGo : Str → Bool → Str
  | [], _ => []
  | c :: cs, prevAlpha =>
    (if c.isAlpha then (if prevAlpha then c.toLower else c.toUpper) else c) ::
      titleGo cs c.isAlpha

/-- Python `str.title()`. -/
def titleL (s : Str) : Str := titleGo s false

/-- Python `str.capitalize()`: first character uppercased, rest lowered. -/
def capitalizeL : Str → Str
  | [] => []
  | c :: cs => c.toUpper :: lowerL cs

/-- Applies a string method to a value: `AttributeError` when the value is
not a string (Python `value.upper()` on a non-string). -/
def strMethod (f : Str → Str) : Value → Except PyErr Value
  | .strV s => .ok (.strV (f s))
  | _ => .error .attributeError

/-- `AbstractFilter.replace_key_values`: the sentinel `"__none__"` renders
as the empty string. -/
def replaceKeyValues (v : Str) : Str :=
  if v == lit "__none__" then [] else v

/-- Python `x or default` for an optional configuration value (truthiness). -/
def orDefault (o : Option Str) (d : Str) : Str :=
  match o with
  | some v => if v.isEmpty then d else v
  | none => d

/-- `get_rendered_value` of the embedded filters (`StringFilter`,
`BoolFilter`, `ListTemplateFilter`, `DefaultFilter`), translated branch for
branch from `filters.py`. -/
def filterRendered (cls : FilterClass) (name : Str) (value : Value)
    (cfg : FilterConfig) : Except PyErr Value :=
  match cls with
  | .stringF =>
    if name == lit "upper" then strMethod upperL (filterGetValue value cfg)
    else if name == lit "lower" then strMethod lowerL (filterGetValue value cfg)
    else if name == lit "title" then strMethod titleL (filterGetValue value cfg)
    else if name == lit "capitalize" then strMethod capitalizeL (filterGetValue value cfg)
    else .ok (filterGetValue value cfg)
  | .boolF =>
    let trueValue := orDefault (getConfiguration cfg (lit "o0")) (lit "True")
    let falseValue := orDefault (getConfiguration cfg (lit "o1")) (lit "False")
    match value with
    | .boolV b => .ok (.strV (replaceKeyValues (if b then trueValue else falseValue)))
    | .strV s =>
      .ok (.strV (replaceKeyValues (if lowerL s == lit "true" then trueValue else falseValue)))
    | v => .ok (filterGetValue v cfg)
  | .listF =>
    match value with
    | .listV xs =>
      if xs.isEmpty then .ok (.strV [])
      else
        let listType := orDefault (getConfiguration cfg (lit "type")) (lit "ul")
        let listClass := orDefault (getConfiguration cfg (lit "class")) []
        let classAttr :=
          if !listClass.isEmpty then lit " class=\"" ++ listClass ++ ['"'] else []
        let openTag :=
          if listType == lit "ol" then lit "<ol" ++ classAttr ++ [ '>' ]
          else lit "<ul" ++ classAttr ++ [ '>' ]
        let items := xs.foldl (fun acc it => acc ++ lit "<li>" ++ pyStr it ++ lit "</li>") []
        let closeTag := if listType == lit "ol" then lit "</ol>" else lit "</ul>"
        .ok (.strV (openTag ++ items ++ closeTag))
    | v => .ok (filterGetValue v cfg)
  | .defaultF => .ok (filterGetValue value cfg)

/-- The filter chain of `TemplateStringVariable.apply_filters`: look up each
name in the registry (`ValueError` when unknown), construct the filter
(eager `check_configuration`), and thread the rendered value. -/
def applyFiltersGo : List (Str × FilterConfig) → Value → Except PyErr Value
  | [], value => .ok value
  | (name, cfg) :: rest, value => do
    let cls ← getFilterClass name
    let _ ← checkConfiguration cls cfg
    let v' ← filterRendered cls name value cfg
    applyFiltersGo rest v'

/-- `TemplateStringVariable.apply_filters`. -/
def applyFilters (v : TVariable) (value : Value) : Except PyErr Value :=
  applyFiltersGo (v.valueFilters.zip v.filterConfigs) value

/-- The per-element fan-out of `TemplateStringVariable.get_value` over a
list-valued variable: the filter chain runs on each element independently
and `None` results are omitted. -/
def fanOutGo (v : TVariable) : List Value → Except PyErr (List Value)
  | [] => .ok []
  | x :: xs => do
    let applied ← applyFilters v x
    let rest ← fanOutGo v xs
    match applied with
    | .noneV => .ok rest
    | a => .ok (a :: rest)

/-- `TemplateStringVariable.get_value`: resolve the raw value; with a
non-empty filter chain, fan out over list values element by element
(`processes_list_as_whole` is never consulted here) and otherwise apply the
chain to the scalar; re-raised exceptions keep their type. -/
def getValue (v : TVariable) (data : Value) : Except PyErr Value :=
  match getRawValue v data with
  | .error e => .error e
  | .ok raw =>
    if v.valueFilters.length > 0 then
      match raw with
      | .listV xs =>
        match fanOutGo v xs with
        | .ok fs => .ok (.listV fs)
        | .error e => .error e
      | _ => applyFilters v raw
    else .ok raw

/-- `TemplateString.get_default_value_from_variable`: the first filter
configuration containing a `default` key (presence, not truthiness). -/
def findDefault : List FilterConfig → Option Str
  | [] => none
  | cfg :: rest =>
    match alistGet cfg (lit "default") with
    | some d => some d
    | none => findDefault rest

/-- A display tag for an exception, standing in for Python's interpolated
exception message (no claim inspects the notice text). -/
def errText : PyErr → Str
  | .keyError => lit "KeyError"
  | .indexError => lit "IndexError"
  | .valueError => lit "ValueError"
  | .typeError => lit "TypeError"
  | .attributeError => lit "AttributeError"
  | .preRender m => lit "PreRenderError: " ++ m
  | .nonTermination => lit "NonTermination"

/-- `TemplateString.get_error`: an inline alert when error surfacing is on,
the empty string otherwise. -/
def getError (showErrors : Bool) (e : PyErr) : Str :=
  if showErrors then
    lit "<div class=\"alert alert-danger\" role=\"alert\">\n                      " ++
      errText e ++ lit "\n                    </div>"
  else []

/-- `TemplateString.join_list`: stringify items (mappings via
`json.dumps`), join with `", "` when more than one, single item unchanged,
empty list to the empty string. -/
def joinListPy (xs : List Value) : Str :=
  let safe := xs.map fun it =>
    match it with
    | .objV kvs => jsonDumps (.objV kvs)
    | v => pyStr v
  if safe.length > 1 then joinWith (lit ", ") safe
  else
    match safe with
    | [s] => s
    | _ => []

/-- The default value substituted on a path miss: passed through the filter
chain when the chain exists gracefully (`except Exception` keeps the raw
default on any filter failure), the raw default otherwise. -/
def defaultRendered (v : TVariable) (defaultValue : Str) : Value :=
  if v.valueFilters.length > 0 then
    match applyFilters v (.strV defaultValue) with
    | .ok r => r
    | .error _ => .strV defaultValue
  else .strV defaultValue

/-- The string substituted for one variable's placeholder by the loop body
of `TemplateString.get_formatted_string`: the rendered value (lists joined)
on success; on `IndexError`/`KeyError` the configured default (filtered when
possible) or the error notice / empty string; on `ValueError` the error
notice / empty string; any other exception propagates and aborts the whole
render. -/
def substitutionValue (showErrors : Bool) (data : Value) (v : TVariable) :
    Except PyErr Str :=
  match getValue v data with
  | .ok d =>
    .ok (match d with
         | .listV xs => joinListPy xs
         | _ => pyStr d)
  | .error .indexError =>
    match findDefault v.filterConfigs with
    | some dv => .ok (pyStr (defaultRendered v dv))
    | none => .ok (getError showErrors .indexError)
  | .error .keyError =>
    match findDefault v.filterConfigs with
    | some dv => .ok (pyStr (defaultRendered v dv))
    | none => .ok (getError showErrors .keyError)
  | .error .valueError => .ok (getError showErrors .valueError)
  | .error e => .error e

/-- The placeholder text `{raw_variable}` replaced in the template. -/
def placeholderOf (v : TVariable) : Str := '\x7b' :: v.raw ++ ['\x7d']

/-- The substitution fold of `TemplateString.get_formatted_string` over the
parsed variables (each replacement replaces every occurrence of the
placeholder, as `str.replace` without a count does). -/
def formatVariablesGo (showErrors : Bool) (data : Value) :
    List TVariable → Str → Except PyErr Str
  | [], acc => .ok acc
  | v :: rest, acc =>
    match substitutionValue showErrors data v with
    | .ok sub => formatVariablesGo showErrors data rest (replaceAllL acc (placeholderOf v) sub)
    | .error e => .error e

/-- `TemplateString.get_formatted_string`. -/
def formattedString (ts : TemplateStringT) : Except PyErr Str :=
  formatVariablesGo ts.showErrors ts.data ts.varList ts.string

/-- Constructing a `TemplateString` and rendering it. -/
def renderTemplate (s : Str) (data : Value) (showErrors : Bool) : Except PyErr Str := do
  let ts ← mkTemplateString s data showErrors
  formattedString ts

/-- Worker for `genSearch`, carrying the current position (tail-recursive
so that long scans reduce without deep nesting). -/
def genSearchFrom (m : Str → Option α) : Nat → Str → Option (Nat × α)
  | i, [] =>
    match m [] with
    | some a => some (i, a)
    | none => none
  | i, c :: cs =>
    match m (c :: cs) with
    | some a => some (i, a)
    | none => genSearchFrom m (i + 1) cs

/-- Generic leftmost regex-style search: `m` attempts an anchored match at a
position; the result is the earliest matching position with the match
payload (`re.search`). -/
def genSearch (m : Str → Option α) (s : Str) : Option (Nat × α) :=
  genSearchFrom m 0 s

/-- Anchored literal match (payload: the literal's length). -/
def litMatchAt (pat : Str) (s : Str) : Option Nat :=
  if !pat.isEmpty && startsWithL pat s then some pat.length else none

/-- Position of the first occurrence of a literal (`re.search` on an
escaped literal pattern). -/
def findSub (pat : Str) (s : Str) : Option Nat :=
  (genSearch (litMatchAt pat) s).map (·.1)

/-- Lazy scan `(.*?)\]\]` (non-DOTALL: fails on a newline before the
closing `]]`): content before the first `]]` and its length. -/
def lazyToDD : Str → Option (Str × Nat)
  | [] => none
  | c :: cs =>
    if startsWithL (lit "]]") (c :: cs) then some ([], 0)
    else if c == '\n' then none
    else (lazyToDD cs).map (fun p => (c :: p.1, p.2 + 1))

/-- Anchored match of `code_start_regex`
`\[\[start_code(?:=(.*?))?\]\]`: returns the optional language group and
the match length. -/
def codeStartMatchAt (s : Str) : Option (Option Str × Nat) :=
  if startsWithL (lit "[[start_code") s then
    let rest := s.drop 12
    if startsWithL (lit "]]") rest then some (none, 14)
    else
      match rest with
      | '=' :: r2 => (lazyToDD r2).map (fun p => (some p.1, 12 + 1 + p.2 + 2))
      | _ => none
  else none

/-- Container token action (`start` / `end`). -/
inductive CAction where
  | startA
  | endA
deriving DecidableEq

/-- Container token kind (`block` / `cell`). -/
inductive CKind where
  | blockK
  | cellK
deriving DecidableEq

/-- Helper for `containerMatchAt`: after one of the four token prefixes,
parse the optional `(?:[:=](.*?))?` parameter and the closing `]]`. -/
def containerTail (rest : Str) (plen : Nat) (a : CAction) (k : CKind) :
    Option (CAction × CKind × Option Str × Nat) :=
  if startsWithL (lit "]]") rest then some (a, k, none, plen + 2)
  else
    match rest with
    | ':' :: r2 => (lazyToDD r2).map (fun p => (a, k, some p.1, plen + 1 + p.2 + 2))
    | '=' :: r2 => (lazyToDD r2).map (fun p => (a, k, some p.1, plen + 1 + p.2 + 2))
    | _ => none

/-- Anchored match of `container_regex`
`\[\[(start|end)_(block|cell)(?:[:=](.*?))?\]\]`. -/
def containerMatchAt (s : Str) : Option (CAction × CKind × Option Str × Nat) :=
  if startsWithL (lit "[[start_block") s then
    containerTail (s.drop 13) 13 .startA .blockK
  else if startsWithL (lit "[[start_cell") s then
    containerTail (s.drop 12) 12 .startA .cellK
  else if startsWithL (lit "[[end_block") s then
    containerTail (s.drop 11) 11 .endA .blockK
  else if startsWithL (lit "[[end_cell") s then
    containerTail (s.drop 10) 10 .endA .cellK
  else none

/-- Character class `[a-zA-Z0-9_-]` of `ui_element_regex`. -/
def isUiNameChar (c : Char) : Bool :=
  ('a' ≤ c && c ≤ 'z') || ('A' ≤ c && c ≤ 'Z') || isDigitCh c || c == '_' || c == '-'

/-- Character class `[0-9a-zA-Z_ -]` of the link/url regexes. -/
def isLinkIdChar (c : Char) : Bool :=
  ('a' ≤ c && c ≤ 'z') || ('A' ≤ c && c ≤ 'Z') || isDigitCh c || c == '_' ||
    c == ' ' || c == '-'

/-- Anchored match of `ui_element_regex` `\[\[element\|([a-zA-Z0-9_-]+)\]\]`. -/
def uiMatchAt (s : Str) : Option (Str × Nat) :=
  if startsWithL (lit "[[element|") s then
    let rest := s.drop 10
    let name := rest.takeWhile isUiNameChar
    if name.isEmpty then none
    else if startsWithL (lit "]]") (rest.dropWhile isUiNameChar) then
      some (name, 10 + name.length + 2)
    else none
  else none

/-- Anchored match of `url_element_regex` `\[\[url\|([0-9a-zA-Z_ -]*)\]\]`. -/
def urlMatchAt (s : Str) : Option (Str × Nat) :=
  if startsWithL (lit "[[url|") s then
    let rest := s.drop 6
    let name := rest.takeWhile isLinkIdChar
    if startsWithL (lit "]]") (rest.dropWhile isLinkIdChar) then
      some (name, 6 + name.length + 2)
    else none
  else none

/-- Helper for `linkMatchAt`: one template alternative. -/
def linkTemplateTail (s : Str) (tmpl : Str) : Option (Str × Str × Nat) :=
  let pre := lit "[[" ++ tmpl ++ ['|']
  if startsWithL pre s then
    let rest := s.drop pre.length
    let eid := rest.takeWhile isLinkIdChar
    if startsWithL (lit "]]") (rest.dropWhile isLinkIdChar) then
      some (tmpl, eid, pre.length + eid.length + 2)
    else none
  else none

/-- Anchored match of `link_element_regex`
`\[\[(file|page|orcid|plotly)\|([0-9a-zA-Z_ -]*)\]\]`. -/
def linkMatchAt (s : Str) : Option (Str × Str × Nat) :=
  match linkTemplateTail s (lit "file") with
  | some r => some r
  | none =>
    match linkTemplateTail s (lit "page") with
    | some r => some r
    | none =>
      match linkTemplateTail s (lit "orcid") with
      | some r => some r
      | none => linkTemplateTail s (lit "plotly")

/-- Anchored match of the block-options marker pattern
`\[\[BLOCK_OPTIONS:([^:]+):([^:]+):([^\]]+)\]\](?!.*\[\[BLOCK_OPTIONS)`
(the negative lookahead rejects a match when another marker starts later on
the same line, because `.` does not cross newlines). -/
def blockOptionsMatchAt (s : Str) : Option (Str × Str × Str × Nat) :=
  if startsWithL (lit "[[BLOCK_OPTIONS:") s then
    let r1 := s.drop 16
    let g1 := r1.takeWhile (· ≠ ':')
    match r1.dropWhile (· ≠ ':') with
    | ':' :: r2 =>
      if g1.isEmpty then none
      else
        let g2 := r2.takeWhile (· ≠ ':')
        match r2.dropWhile (· ≠ ':') with
        | ':' :: r3 =>
          if g2.isEmpty then none
          else
            let g3 := r3.takeWhile (· ≠ ']')
            match r3.dropWhile (· ≠ ']') with
            | ']' :: ']' :: rest =>
              if g3.isEmpty then none
              else if occursL (lit "[[BLOCK_OPTIONS") (rest.takeWhile (· ≠ '\n')) then none
              else some (g1, g2, g3, 16 + g1.length + 1 + g2.length + 1 + g3.length + 2)
            | _ => none
        | _ => none
    | _ => none
  else none

/-- Worker for `stripHtmlTags` (`re.sub(r'<[^>]+>', '', content)`), with
fuel for structural recursion. -/
def stripHtmlTagsGo : Nat → Str → Str
  | _, [] => []
  | 0, s => s
  | fuel + 1, '<' :: rest =>
    let inner := rest.takeWhile (· ≠ '>')
    match rest.dropWhile (· ≠ '>') with
    | '>' :: after =>
      if inner.isEmpty then '<' :: stripHtmlTagsGo fuel rest
      else stripHtmlTagsGo fuel after
    | _ => '<' :: stripHtmlTagsGo fuel rest
  | fuel + 1, c :: cs => c :: stripHtmlTagsGo fuel cs

/-- Removes every `<...>` span, preserving the text content
(`create_code_blocks`' wrapper-markup stripping). -/
def stripHtmlTags (s : Str) : Str := stripHtmlTagsGo s.length s

/-- Worker for `reSub`: left-to-right replacement of every match of an
anchored matcher (payload: match length and replacement text), continuing
after each replacement as `re.sub` does. -/
def reSubGo (m : Str → Option (Nat × Str)) : Nat → Str → Str
  | _, [] => []
  | 0, s => s
  | fuel + 1, c :: cs =>
    match m (c :: cs) with
    | some (len, rep) =>
      if len == 0 then c :: reSubGo m fuel cs
      else rep ++ reSubGo m fuel ((c :: cs).drop len)
    | none => c :: reSubGo m fuel cs

/-- `re.sub` over a whole string for an anchored matcher. -/
def reSub (m : Str → Option (Nat × Str)) (s : Str) : Str := reSubGo m s.length s

/-- Matches one `\[\[(?:start|end)_(?:cell|block)[^\]]*\]\]` tag (the group
of `_clean_template_tag_wrappers`' first pattern): returns the matched tag
text and the remaining input. -/
def cleanTagAt (s : Str) : Option (Str × Str) :=
  let tryPre : Str → Option (Str × Str) := fun pre =>
    if startsWithL pre s then
      let rest := s.drop pre.length
      let run := rest.takeWhile (· ≠ ']')
      let after := rest.dropWhile (· ≠ ']')
      if startsWithL (lit "]]") after then
        some (pre ++ run ++ lit "]]", after.drop 2)
      else none
    else none
  match tryPre (lit "[[start_cell") with
  | some r => some r
  | none =>
    match tryPre (lit "[[start_block") with
    | some r => some r
    | none =>
      match tryPre (lit "[[end_cell") with
      | some r => some r
      | none => tryPre (lit "[[end_block")

/-- Matches one `\[\[(?:CELL_(?:START|END)|start|end)_[^\]]*\]\]` tag (the
group of the `<br>`-adjacency patterns; note the literal underscore after
the alternation, exactly as in the source, so actual `[[CELL_START:...]]`
markers — which use a colon — never match). -/
def cleanTag3At (s : Str) : Option (Str × Str) :=
  let tryPre : Str → Option (Str × Str) := fun pre =>
    if startsWithL pre s then
      let rest := s.drop pre.length
      let run := rest.takeWhile (· ≠ ']')
      let after := rest.dropWhile (· ≠ ']')
      if startsWithL (lit "]]") after then
        some (pre ++ run ++ lit "]]", after.drop 2)
      else none
    else none
  match tryPre (lit "[[CELL_START_") with
  | some r => some r
  | none =>
    match tryPre (lit "[[CELL_END_") with
    | some r => some r
    | none =>
      match tryPre (lit "[[start_") with
      | some r => some r
      | none => tryPre (lit "[[end_")

/-- Matches `<br\s*/?>`: returns the remaining input. -/
def brTail (s : Str) : Option Str :=
  if startsWithL (lit "<br") s then
    let r := (s.drop 3).dropWhile isPyWs
    if startsWithL (lit "/>") r then some (r.drop 2)
    else if startsWithL (lit ">") r then some (r.drop 1)
    else none
  else none

/-- Anchored match of `<p>\s*(\[\[(?:start|end)_(?:cell|block)[^\]]*\]\])\s*</p>`,
replaced by the captured tag. -/
def cleanSub1At (s : Str) : Option (Nat × Str) :=
  if startsWithL (lit "<p>") s then
    let r1 := (s.drop 3).dropWhile isPyWs
    match cleanTagAt r1 with
    | some (tag, r2) =>
      let r3 := r2.dropWhile isPyWs
      if startsWithL (lit "</p>") r3 then
        some (s.length - (r3.length - 4), tag)
      else none
    | none => none
  else none

/-- Anchored match of `<p>\s*</p>`, replaced by the empty string. -/
def cleanSub2At (s : Str) : Option (Nat × Str) :=
  if startsWithL (lit "<p>") s then
    let r1 := (s.drop 3).dropWhile isPyWs
    if startsWithL (lit "</p>") r1 then
      some (s.length - (r1.length - 4), [])
    else none
  else none

/-- Anchored match of
`(\[\[(?:CELL_(?:START|END)|start|end)_[^\]]*\]\])\s*<br\s*/?>`, replaced by
the captured tag. -/
def cleanSub3At (s : Str) : Option (Nat × Str) :=
  match cleanTag3At s with
  | some (tag, r1) =>
    match brTail (r1.dropWhile isPyWs) with
    | some r2 => some (s.length - r2.length, tag)
    | none => none
  | none => none

/-- Anchored match of
`<br\s*/?>\s*(\[\[(?:CELL_(?:START|END)|start|end)_[^\]]*\]\])`, replaced by
the captured tag. -/
def cleanSub4At (s : Str) : Option (Nat × Str) :=
  match brTail s with
  | some r1 =>
    match cleanTag3At (r1.dropWhile isPyWs) with
    | some (tag, r2) => some (s.length - r2.length, tag)
    | none => none
  | none => none

/-- `TextPreRenderer._clean_template_tag_wrappers`: the four `re.sub`
passes in source order. -/
def cleanTemplateTagWrappers (s : Str) : Str :=
  reSub cleanSub4At (reSub cleanSub3At (reSub cleanSub2At (reSub cleanSub1At s)))

/-- Block options parsed from a `[[start_block...]]` parameter. -/
structure BlockOptions where
  title : Option Str
  collapsible : Bool
  backToTop : Bool

/-- Truthy option values of `_parse_block_options`
(`value.lower() in ['true', '1', 'yes']`). -/
def optTruthy (v : Str) : Bool :=
  lowerL v == lit "true" || lowerL v == lit "1" || lowerL v == lit "yes"

/-- One `key=value` pair of the new block-option syntax. -/
def applyOptionPair (opts : BlockOptions) (pair : Str) : BlockOptions :=
  let pair := stripL pair
  if pair.contains '=' then
    let (k0, v0) := splitOnFirst '=' pair
    let k := lowerL (stripL k0)
    let v := stripL v0
    if k == lit "title" then { opts with title := some v }
    else if k == lit "collapsible" || k == lit "collapsable" then
      { opts with collapsible := optTruthy v }
    else if k == lit "back_to_top" then { opts with backToTop := optTruthy v }
    else opts
  else opts

/-- `TextPreRenderer._parse_block_options`: old title-only syntax versus
new `key=value` syntax, sniffed by the presence of a comma or of an `=`
without a colon. -/
def parseBlockOptions (param : Option Str) : BlockOptions :=
  let base : BlockOptions := { title := none, collapsible := false, backToTop := false }
  match param with
  | none => base
  | some p =>
    if p.isEmpty then base
    else if p.contains ',' || (p.contains '=' && !p.contains ':') then
      (splitOnCharL ',' p).foldl applyOptionPair base
    else { base with title := some p }

/-- Characters kept by the anchor slug (`[a-z0-9]` after lowering). -/
def isSlugCh (c : Char) : Bool := ('a' ≤ c && c ≤ 'z') || isDigitCh c

/-- Worker for `slugify` (`re.sub(r'[^a-z0-9]+', '-', ...)`). -/
def slugGo : Nat → Str → Str
  | _, [] => []
  | 0, s => s
  | fuel + 1, c :: cs =>
    if isSlugCh c then c :: slugGo fuel cs
    else '-' :: slugGo fuel (cs.dropWhile (fun c => !isSlugCh c))

/-- The anchor slug of a block title:
`re.sub(r'[^a-z0-9]+', '-', title.lower()).strip('-')`. -/
def slugify (t : Str) : Str := stripCharL '-' (slugGo t.length (lowerL t))

/-- Python `str(bool)`. -/
def pyBoolStr (b : Bool) : Str := if b then lit "True" else lit "False"

/-- The collapsible card-header fragment of the block-start replacement
(exact text of the triple-quoted f-string in `create_containers`). -/
def collapsibleHeaderHtml (titleText collapseId : Str) : Str :=
  lit "\n                                    <h3 class=\"card-title mb-0\">" ++ titleText ++
  lit "</h3>\n                                    <button class=\"btn btn-sm btn-outline-secondary\" type=\"button\"\n                                            data-bs-toggle=\"collapse\" data-bs-target=\"#" ++
  collapseId ++
  lit "\"\n                                            aria-expanded=\"true\" aria-controls=\"" ++
  collapseId ++
  lit "\">\n                                        <i class=\"fas fa-chevron-up collapse-icon\"></i>\n                                    </button>\n                                "

/-- The back-to-top fragment of the block-end replacement (exact text of
the triple-quoted string in `create_containers`). -/
def backToTopHtml : Str :=
  lit "\n                                    <div class=\"text-end mt-3\">\n                                        <a href=\"#top\" class=\"btn btn-sm btn-outline-primary\">\n                                            <i class=\"fas fa-arrow-up\"></i> Back to Top\n                                        </a>\n                                    </div>\n                                "

/-- The replacement HTML for a `[[start_block...]]` token and the title
entry registered for the TOC (when the title is truthy). -/
def blockStartReplacement (bc : Nat) (opts : BlockOptions) : Str × Option (Str × Str) :=
  let titleTruthy := match opts.title with
    | some t => !t.isEmpty
    | none => false
  let titleStr := opts.title.getD []
  let anchor :=
    if titleTruthy then lit "block-" ++ natStr bc ++ ['-'] ++ slugify titleStr
    else lit "block-" ++ natStr bc
  let collapseId := lit "collapse-" ++ anchor
  let header :=
    if opts.collapsible || titleTruthy then
      lit "<div class=\"card-header d-flex justify-content-between align-items-center\">" ++
        (if opts.collapsible then
          collapsibleHeaderHtml (if titleTruthy then titleStr else []) collapseId
        else
          lit "<h3 class=\"card-title mb-0\">" ++ titleStr ++ lit "</h3>") ++
        lit "</div>"
    else []
  let collapseOpen :=
    if opts.collapsible then
      lit "<div class=\"collapse show\" id=\"" ++ collapseId ++ lit "\">"
    else []
  let marker :=
    if opts.collapsible || opts.backToTop then
      lit "[[BLOCK_OPTIONS:" ++ anchor ++ [':'] ++ pyBoolStr opts.collapsible ++
        [':'] ++ pyBoolStr opts.backToTop ++ lit "]]"
    else []
  (lit "<div class=\"card mb-2 box-shadow\" id=\"" ++ anchor ++ lit "\">" ++ header ++
     collapseOpen ++ lit "<div class=\"card-body d-flex flex-column\">" ++ marker,
   if titleTruthy then some (titleStr, anchor) else none)

/-- `TextPreRenderer._parse_cell_width`. -/
def parseCellWidth (w : Str) : Str :=
  let w := stripL w
  if startsWithL (lit "col-") w then
    lit "class=\"cell-block " ++ replaceAllL w [','] [' '] ++ ['"']
  else
    lit "class=\"cell-block\" style=\"flex: 0 0 " ++ w ++ lit "; min-width: 0;\""

/-- The replacement marker for a `[[start_cell...]]` token. -/
def cellStartReplacement (param : Option Str) : Str :=
  match param with
  | some p =>
    if !p.isEmpty then lit "[[CELL_START:" ++ parseCellWidth p ++ lit "]]"
    else lit "[[CELL_START:class=\"cell-block\" style=\"flex: 1; min-width: 0;\"]]"
  | none => lit "[[CELL_START:class=\"cell-block\" style=\"flex: 1; min-width: 0;\"]]"

/-- All container-token occurrences of a text in order
(`re.finditer(container_regex, ...)`, used by `check_tags_integrity`). -/
def containerFindAll : Nat → Str → List (CAction × CKind)
  | 0, _ => []
  | fuel + 1, s =>
    match genSearch containerMatchAt s with
    | none => []
    | some (i, a, k, _, mlen) => (a, k) :: containerFindAll fuel (s.drop (i + mlen))

/-- `TextPreRenderer.check_tags_integrity`: per container type, the number
of `start` tokens must equal the number of `end` tokens. -/
def checkTagsIntegrity (s : Str) : Bool :=
  let ms := containerFindAll (s.length + 1) s
  (ms.count (.startA, .blockK) == ms.count (.endA, .blockK)) &&
    (ms.count (.startA, .cellK) == ms.count (.endA, .cellK))

/-- The rewrite loop of `TextPreRenderer.create_containers`.  The fuel is
`MAX_ITERATIONS + 1 - security_breaker`: each iteration rewrites the
leftmost container token, and the 51st rewrite raises
`PreRenderError("Too many container elements.")` exactly as
`security_breaker > 50` does. -/
def containersLoopGo : Nat → Str → Nat → List (Str × Str) →
    Except PyErr (Str × List (Str × Str))
  | 0, _, _, _ => .error (.preRender (lit "Too many container elements."))
  | fuel + 1, text, bc, titles =>
    match genSearch containerMatchAt text with
    | none => .ok (text, titles)
    | some (i, action, kind, param, mlen) =>
      let fullMatch := (text.drop i).take mlen
      let step :=
        match kind, action with
        | CKind.blockK, CAction.startA =>
          let (repl, entry) := blockStartReplacement (bc + 1) (parseBlockOptions param)
          (text, repl, bc + 1,
            match entry with
            | some e => titles ++ [e]
            | none => titles)
        | CKind.blockK, CAction.endA =>
          let beforeText := text.take i
          (match genSearch blockOptionsMatchAt beforeText with
           | some (j, _, g2, g3, mlen2) =>
             let markerStr := (beforeText.drop j).take mlen2
             ((replaceFirstL text markerStr []),
               (if g3 == lit "True" then backToTopHtml else []) ++ lit "</div>" ++
                 (if g2 == lit "True" then lit "</div>" else []) ++ lit "</div>",
               bc, titles)
           | none => (text, lit "</div></div>", bc, titles))
        | CKind.cellK, CAction.startA => (text, cellStartReplacement param, bc, titles)
        | CKind.cellK, CAction.endA => (text, lit "[[CELL_END]]", bc, titles)
      match step with
      | (text1, repl, bc', titles') =>
        let text2 := replaceFirstL text1 fullMatch repl
        if fuel == 0 then .error (.preRender (lit "Too many container elements."))
        else containersLoopGo fuel text2 bc' titles'

/-- Anchored match of the wrap-pass cell pattern
`\[\[CELL_START:([^\]]+)\]\](.*?)\[\[CELL_END\]\]` (DOTALL): attribute,
content and match length. -/
def cellMatchAt (s : Str) : Option (Str × Str × Nat) :=
  if startsWithL (lit "[[CELL_START:") s then
    let r1 := s.drop 13
    let attr := r1.takeWhile (· ≠ ']')
    if attr.isEmpty then none
    else
      match r1.dropWhile (· ≠ ']') with
      | ']' :: ']' :: r2 =>
        match findSub (lit "[[CELL_END]]") r2 with
        | some j => some (attr, r2.take j, 13 + attr.length + 2 + j + 12)
        | none => none
      | _ => none
  else none

/-- The inner cell-collecting loop of `_wrap_cells_in_rows`: anchored cell
matches, whitespace-skipping between consecutive cells; returns the
accumulated cell HTML and the remaining text. -/
def wrapInner : Nat → Str → Str → Str × Str
  | 0, s, cells => (cells, s)
  | fuel + 1, s, cells =>
    match cellMatchAt s with
    | some (attr, content, mlen) =>
      let cells' := cells ++ lit "<div " ++ attr ++ ['>'] ++ content ++ lit "</div>"
      let s' := s.drop mlen
      let stripped := lstripL s'
      if !startsWithL (lit "[[CELL_START:") stripped then (cells', s')
      else wrapInner fuel stripped cells'
    | none => (cells, s)

/-- The outer loop of `_wrap_cells_in_rows`.  `none` models the Python
original looping forever: when a `[[CELL_START:` occurrence is not followed
by a completed cell pattern the source's `pos` stops advancing and the
`while` loop never exits, so no fuel is ever enough. -/
def wrapOuterGo : Nat → Str → Str → Option Str
  | 0, _, _ => none
  | fuel + 1, s, acc =>
    match findSub (lit "[[CELL_START:") s with
    | none => some (acc ++ s)
    | some i =>
      let acc1 := acc ++ s.take i
      let s1 := s.drop i
      match wrapInner (s1.length + 1) s1 [] with
      | (cells, s2) =>
        let acc2 :=
          if cells.isEmpty then acc1
          else
            acc1 ++
              lit "<div class=\"cell-row\" style=\"display: flex; gap: 1rem; align-items: flex-start; flex-wrap: wrap;\">" ++
              cells ++ lit "</div>"
        wrapOuterGo fuel s2 acc2

/-- `TextPreRenderer._wrap_cells_in_rows`.  The fuel `|text| + 2` suffices
for every terminating run of the original (each outer iteration either
consumes input or is the final, empty-match iteration); exhaustion —
`none` — occurs exactly on the inputs where the original diverges. -/
def wrapCellsInRows (s : Str) : Option Str := wrapOuterGo (s.length + 2) s []

/-- `TextPreRenderer.create_containers`: integrity check, CKEditor wrapper
cleanup, the bounded rewrite loop, then row wrapping.  Returns the rendered
text together with the `block_titles` registered for the TOC pass. -/
def createContainers (text : Str) : Except PyErr (Str × List (Str × Str)) :=
  if checkTagsIntegrity text then
    let t1 := cleanTemplateTagWrappers text
    match containersLoopGo 51 t1 0 [] with
    | .error e => .error e
    | .ok (t2, titles) =>
      match wrapCellsInRows t2 with
      | some t3 => .ok (t3, titles)
      | none => .error .nonTermination
  else .error (.preRender (lit "Container tags are not well-formed."))

/-- JSON values for the code-block pretty-printing pass (integer fragment;
floating-point literals are outside the model, so inputs containing them
parse as invalid and are left unformatted). -/
inductive JVal where
  | jstr (s : Str)
  | jint (n : Int)
  | jbool (b : Bool)
  | jnull
  | jarr (xs : List JVal)
  | jobj (kvs : List (Str × JVal))

/-- JSON whitespace (`json.loads` accepts space, tab, newline, return). -/
def isJsonWs (c : Char) : Bool :=
  c == ' ' || c == '\t' || c == '\n' || c == '\r'

/-- Parses a JSON string body after the opening quote (escape subset
`\" \\ \/ \n \t \r`; other escapes and raw control characters make the
parse fail, leaving the content unformatted). -/
def jstringGo : Nat → Str → Str → Option (Str × Str)
  | 0, _, _ => none
  | fuel + 1, s, acc =>
    match s with
    | [] => none
    | '"' :: rest => some (acc, rest)
    | '\\' :: e :: rest =>
      if e == '"' || e == '\\' || e == '/' then jstringGo fuel rest (acc ++ [e])
      else if e == 'n' then jstringGo fuel rest (acc ++ ['\n'])
      else if e == 't' then jstringGo fuel rest (acc ++ ['\t'])
      else if e == 'r' then jstringGo fuel rest (acc ++ ['\r'])
      else none
    | c :: rest =>
      if c.toNat < 32 then none else jstringGo fuel rest (acc ++ [c])

/-- Parses a JSON integer literal (sign, digits, no leading zeros). -/
def jintAt (s : Str) : Option (Int × Str) :=
  let (neg, s1) := match s with
    | '-' :: rest => (true, rest)
    | _ => (false, s)
  let digs := s1.takeWhile isDigitCh
  let rest := s1.dropWhile isDigitCh
  if digs.isEmpty then none
  else if digs.length > 1 && digs.head? == some '0' then none
  else
    let n : Int := Int.ofNat (strToNat digs)
    some (if neg then -n else n, rest)

mutual

/-- Recursive-descent JSON value parser with fuel. -/
def jparse : Nat → Str → Option (JVal × Str)
  | 0, _ => none
  | fuel + 1, s =>
    let s := s.dropWhile isJsonWs
    match s with
    | [] => none
    | c :: rest =>
      if c == '"' then (jstringGo (rest.length + 1) rest []).map fun p => (.jstr p.1, p.2)
      else if c == '[' then
        match rest.dropWhile isJsonWs with
        | ']' :: r2 => some (.jarr [], r2)
        | _ => (jarrItems fuel rest).map fun p => (.jarr p.1, p.2)
      else if c == '\x7b' then
        match rest.dropWhile isJsonWs with
        | '\x7d' :: r2 => some (.jobj [], r2)
        | _ => (jobjItems fuel rest).map fun p => (.jobj p.1, p.2)
      else if startsWithL (lit "true") s then some (.jbool true, s.drop 4)
      else if startsWithL (lit "false") s then some (.jbool false, s.drop 5)
      else if startsWithL (lit "null") s then some (.jnull, s.drop 4)
      else if c == '-' || isDigitCh c then (jintAt s).map fun p => (.jint p.1, p.2)
      else none

/-- Parses the elements of a non-empty JSON array (after `[`). -/
def jarrItems : Nat → Str → Option (List JVal × Str)
  | 0, _ => none
  | fuel + 1, s => do
    let (v, r1) ← jparse fuel s
    match r1.dropWhile isJsonWs with
    | ',' :: r2 => (jarrItems fuel r2).map fun p => (v :: p.1, p.2)
    | ']' :: r2 => some ([v], r2)
    | _ => none

/-- Parses the members of a non-empty JSON object (after the brace). -/
def jobjItems : Nat → Str → Option (List (Str × JVal) × Str)
  | 0, _ => none
  | fuel + 1, s =>
    match s.dropWhile isJsonWs with
    | '"' :: r1 => do
      let (k, r2) ← jstringGo (r1.length + 1) r1 []
      match r2.dropWhile isJsonWs with
      | ':' :: r3 => do
        let (v, r4) ← jparse fuel r3
        match r4.dropWhile isJsonWs with
        | ',' :: r5 => (jobjItems fuel r5).map fun p => ((k, v) :: p.1, p.2)
        | '\x7d' :: r5 => some ([(k, v)], r5)
        | _ => none
      | _ => none
    | _ => none

end

/-- `json.loads` on a whole string (trailing non-whitespace rejected). -/
def jloads (s : Str) : Option JVal := do
  let (v, rest) ← jparse (s.length + 1) s
  if (rest.dropWhile isJsonWs).isEmpty then some v else none

/-- String escaping of `json.dumps` with `ensure_ascii=False` (subset). -/
def jdumpEscape : Str → Str
  | [] => []
  | c :: cs =>
    (if c == '"' then lit "\\\""
     else if c == '\\' then lit "\\\\"
     else if c == '\n' then lit "\\n"
     else if c == '\t' then lit "\\t"
     else if c == '\r' then lit "\\r"
     else [c]) ++ jdumpEscape cs

mutual

/-- `json.dumps(v, indent=2, ensure_ascii=False)` at an indent level. -/
def jdump (level : Nat) : JVal → Str
  | .jstr s => '"' :: jdumpEscape s ++ ['"']
  | .jint n => intStr n
  | .jbool b => if b then lit "true" else lit "false"
  | .jnull => lit "null"
  | .jarr [] => lit "[]"
  | .jarr (x :: xs) =>
    lit "[\n" ++ joinWith (lit ",\n") (jdumpItems (level + 1) (x :: xs)) ++
      ['\n'] ++ List.replicate (2 * level) ' ' ++ [']']
  | .jobj [] => lit "\x7b\x7d"
  | .jobj (kv :: kvs) =>
    lit "\x7b\n" ++ joinWith (lit ",\n") (jdumpPairs (level + 1) (kv :: kvs)) ++
      ['\n'] ++ List.replicate (2 * level) ' ' ++ ['\x7d']

/-- Indented array items. -/
def jdumpItems (level : Nat) : List JVal → List Str
  | [] => []
  | x :: xs => (List.replicate (2 * level) ' ' ++ jdump level x) :: jdumpItems level xs

/-- Indented object members. -/
def jdumpPairs (level : Nat) : List (Str × JVal) → List Str
  | [] => []
  | (k, v) :: rest =>
    (List.replicate (2 * level) ' ' ++ '"' :: jdumpEscape k ++ ['"'] ++ lit ": " ++
        jdump level v) :: jdumpPairs level rest

end

/-- The JSON pretty-printing step of `create_code_blocks`: non-breaking
spaces replaced, then `json.loads`/`json.dumps(indent=2)`; a parse failure
keeps the original content. -/
def jsonPrettyOr (content : Str) : Str :=
  let cleaned := replaceAllL content ['\xa0'] [' ']
  match jloads cleaned with
  | some jv => jdump 0 jv
  | none => content

/-- The rewrite loop of `TextPreRenderer.create_code_blocks`, returning the
result together with the final `security_breaker` count.  The fuel is
`MAX_ITERATIONS + 1 - security_breaker`; the 51st rewrite raises
`PreRenderError("Too many code block rendering iterations.")`. -/
def createCodeBlocksGo : Nat → Str → Nat → (Except PyErr Str) × Nat
  | 0, _, steps => (.error (.preRender (lit "Too many code block rendering iterations.")), steps)
  | fuel + 1, text, steps =>
    match genSearch codeStartMatchAt text with
    | none => (.ok text, steps)
    | some (i, langOpt, mlen) =>
      let startPos := i + mlen
      match findSub (lit "[[end_code]]") (text.drop startPos) with
      | none => (.ok text, steps)
      | some j =>
        let language :=
          match langOpt with
          | some l => if l.isEmpty then lit "text" else l
          | none => lit "text"
        let c0 := (text.drop startPos).take j
        let c1 := stripHtmlTags c0
        let c2 := htmlUnescape c1
        let c3 := stripL c2
        let c4 := if lowerL language == lit "json" then jsonPrettyOr c3 else c3
        let c5 := htmlEscape c4
        let codeHtml :=
          lit "<pre class=\"code-block\"><code class=\"language-" ++ lowerL language ++
            lit "\">" ++ c5 ++ lit "</code></pre>"
        let fullBlock := (text.drop i).take (mlen + j + 12)
        let text' := replaceFirstL text fullBlock codeHtml
        if fuel == 0 then
          (.error (.preRender (lit "Too many code block rendering iterations.")), steps + 1)
        else createCodeBlocksGo fuel text' (steps + 1)

/-- `TextPreRenderer.create_code_blocks`. -/
def createCodeBlocks (text : Str) : Except PyErr Str :=
  (createCodeBlocksGo 51 text 0).1

/-- The number of rewrite iterations `create_code_blocks` performs (its
`security_breaker` when the loop stops). -/
def codeBlockSteps (text : Str) : Nat :=
  (createCodeBlocksGo 51 text 0).2

/-- `TextPreRenderer.create_toc`: replace `[[toc]]` with the list of links
to the registered block anchors, or remove it when no titled block exists. -/
def createToc (text : Str) (titles : List (Str × Str)) : Str :=
  match findSub (lit "[[toc]]") text with
  | some _ =>
    if !titles.isEmpty then
      let items := titles.foldl
        (fun acc p =>
          acc ++ lit "<li><a href=\"#" ++ p.2 ++ lit "\">" ++ p.1 ++ lit "</a></li>") []
      let tocHtml :=
        lit "<div class=\"card mb-3 toc-container\">" ++ lit "<div class=\"card-body\">" ++
          lit "<h4 class=\"card-title\">Table of Contents</h4>" ++
          lit "<ul class=\"list-unstyled\">" ++ items ++ lit "</ul>" ++ lit "</div>" ++
          lit "</div>"
      replaceAllL text (lit "[[toc]]") tocHtml
    else replaceAllL text (lit "[[toc]]") []
  | none => text

/-- The pre-renderer's collaborator lookups, abstracted per the
specification's external-interface contracts: the rendered HTML of a named
UI element (`None` models `NdrCoreUIElement.DoesNotExist`), the URL of a
page by view name, and the rendered replacement for `file`/`page`/`plotly`
link tokens (whose construction in the source is Django template rendering
and file IO). -/
structure PreRenderCollab where
  uiElementHtml : Str → Option Str
  pageUrl : Str → Option Str
  linkHtml : Str → Str → Str

/-- The rewrite loop of `TextPreRenderer.create_ui_elements` (fuel as in
`containersLoopGo`; an unknown element renders an inline error span; every
occurrence of the token is replaced at once, as `str.replace` does). -/
def createUiElementsGo (collab : PreRenderCollab) : Nat → Str → Except PyErr Str
  | 0, _ => .error (.preRender (lit "Too many UI element rendering iterations."))
  | fuel + 1, text =>
    match genSearch uiMatchAt text with
    | none => .ok text
    | some (_, name, _) =>
      let html :=
        match collab.uiElementHtml name with
        | none => lit "<span class='text-danger'>UI Element not found: " ++ name ++ lit "</span>"
        | some h => h
      let text' := replaceAllL text (lit "[[element|" ++ name ++ lit "]]") html
      if fuel == 0 then .error (.preRender (lit "Too many UI element rendering iterations."))
      else createUiElementsGo collab fuel text'

/-- `TextPreRenderer.create_ui_elements`. -/
def createUiElements (collab : PreRenderCollab) (text : Str) : Except PyErr Str :=
  createUiElementsGo collab 51 text

/-- The rewrite loop of `TextPreRenderer.create_urls`: a missing page
degrades to `#page-not-found-<name>`. -/
def createUrlsGo (collab : PreRenderCollab) : Nat → Str → Except PyErr Str
  | 0, _ => .error (.preRender (lit "Too many URL rendering iterations."))
  | fuel + 1, text =>
    match genSearch urlMatchAt text with
    | none => .ok text
    | some (_, name, _) =>
      let url :=
        match collab.pageUrl name with
        | some u => u
        | none => lit "#page-not-found-" ++ name
      let text' := replaceAllL text (lit "[[url|" ++ name ++ lit "]]") url
      if fuel == 0 then .error (.preRender (lit "Too many URL rendering iterations."))
      else createUrlsGo collab fuel text'

/-- `TextPreRenderer.create_urls`. -/
def createUrls (collab : PreRenderCollab) (text : Str) : Except PyErr Str :=
  createUrlsGo collab 51 text

/-- The fixed ORCID pattern `^\d{4}-\d{4}-\d{4}-\d{3}[0-9X]$` (the id
character class cannot contain a newline, so `$` is an exact end). -/
def orcidValid (eid : Str) : Bool :=
  match eid with
  | [a1, a2, a3, a4, h1, b1, b2, b3, b4, h2, c1, c2, c3, c4, h3, d1, d2, d3, x] =>
    [a1, a2, a3, a4, b1, b2, b3, b4, c1, c2, c3, c4, d1, d2, d3].all isDigitCh &&
      h1 == '-' && h2 == '-' && h3 == '-' && (isDigitCh x || x == 'X')
  | _ => false

/-- The ORCID anchor produced by `render_element` (exact text of the
f-string, placeholders substituted). -/
def orcidLinkHtml (eid : Str) : Str :=
  lit "\n            <a href=\"https://orcid.org/" ++ eid ++
  lit "\" target=\"_blank\" class=\"orcid-link\" rel=\"noopener noreferrer\">\n                <img src=\"/static/ndr_core/images/orcid.svg\" alt=\"ORCID\" style=\"width: 16px; height: 16px; vertical-align: middle;\">\n                " ++
  eid ++ lit "\n            </a>\n            "

/-- `TextPreRenderer.render_element`: ORCID tokens are validated and
rendered concretely; `file`/`page`/`plotly` tokens are resolved through the
collaborator (which may itself produce the source's inline error spans). -/
def renderLinkElement (collab : PreRenderCollab) (tmpl eid text : Str) : Str :=
  let token := lit "[[" ++ tmpl ++ ['|'] ++ eid ++ lit "]]"
  if tmpl == lit "orcid" then
    if orcidValid eid then replaceAllL text token (orcidLinkHtml eid)
    else
      replaceAllL text token
        (lit "<span class='text-danger'>Invalid ORCID: " ++ eid ++ lit "</span>")
  else replaceAllL text token (collab.linkHtml tmpl eid)

/-- The rewrite loop of `TextPreRenderer.create_links`. -/
def createLinksGo (collab : PreRenderCollab) : Nat → Str → Except PyErr Str
  | 0, _ => .error (.preRender (lit "Too many link elements rendering iterations."))
  | fuel + 1, text =>
    match genSearch linkMatchAt text with
    | none => .ok text
    | some (_, tmpl, eid, _) =>
      let text' := renderLinkElement collab tmpl eid text
      if fuel == 0 then
        .error (.preRender (lit "Too many link elements rendering iterations."))
      else createLinksGo collab fuel text'

/-- `TextPreRenderer.create_links`. -/
def createLinks (collab : PreRenderCollab) (text : Str) : Except PyErr Str :=
  createLinksGo collab 51 text

/-- `TextPreRenderer.get_pre_rendered_text`: the five ordered passes (code
blocks, containers/cells, TOC, UI elements, URLs, links); the empty text
short-circuits; a `PreRenderError` from any pass aborts the pipeline. -/
def getPreRenderedText (collab : PreRenderCollab) (text : Str) : Except PyErr Str :=
  if text.isEmpty then .ok text
  else do
    let t1 ← createCodeBlocks text
    let (t2, titles) ← createContainers t1
    let t3 := createToc t2 titles
    let t4 ← createUiElements collab t3
    let t5 ← createUrls collab t4
    createLinks collab t5

/-- Bind on a successful `Except` computation reduces to the
continuation. -/
theorem exceptBind_ok (a : α) (f : α → Except ε β) :
    (Except.ok a >>= f) = f a := rfl

/-- Bind on a failed `Except` computation short-circuits. -/
theorem exceptBind_error (e : ε) (f : α → Except ε β) :
    ((Except.error e : Except ε α) >>= f) = Except.error e := rfl

/-- When the raw path resolution fails, `get_value` fails with the same
exception type (the re-raising wrappers preserve it). -/
theorem getValue_raw_error {v : TVariable} {data : Value} {e : PyErr}
    (h : getRawValue v data = .error e) : getValue v data = .error e := by
  simp [getValue, h]

/-- C1: for every template string containing a variable whose base path is
missing from the data document (its raw resolution fails with
`KeyError`/`IndexError`): with no `default` configured on any filter of the
chain and error-surfacing off, rendering substitutes the empty string for
the placeholder; with a first `default="D"` configured, rendering
substitutes `D` passed through the filter chain when the chain succeeds on
it, and the raw `D` otherwise (`defaultRendered`). -/
theorem C1_missing_path_fallback (v : TVariable) (data : Value) (s : Str)
    (hmiss : getRawValue v data = .error .keyError ∨
      getRawValue v data = .error .indexError) :
    (findDefault v.filterConfigs = none →
      formattedString ⟨s, data, [v], false⟩ =
        .ok (replaceAllL s (placeholderOf v) [])) ∧
    (∀ d, findDefault v.filterConfigs = some d → ∀ se,
      formattedString ⟨s, data, [v], se⟩ =
        .ok (replaceAllL s (placeholderOf v) (pyStr (defaultRendered v d)))) := by
  have hval : getValue v data = .error .keyError ∨
      getValue v data = .error .indexError := by
    cases hmiss with
    | inl h => exact Or.inl (getValue_raw_error h)
    | inr h => exact Or.inr (getValue_raw_error h)
  constructor
  · intro hdef
    cases hval with
    | inl h =>
      simp [formattedString, formatVariablesGo, substitutionValue, h, hdef, getError]
    | inr h =>
      simp [formattedString, formatVariablesGo, substitutionValue, h, hdef, getError]
  · intro d hdef se
    cases hval with
    | inl h =>
      simp [formattedString, formatVariablesGo, substitutionValue, h, hdef]
    | inr h =>
      simp [formattedString, formatVariablesGo, substitutionValue, h, hdef]

/-- Data document used by the C1 witness. -/
def c1DataEmpty : Value := .objV []

/-- Parsed form of `missing|upper:default=d` (as `mkTVariable` produces). -/
def c1VarDefault : TVariable :=
  ⟨lit "missing|upper:default=d", lit "missing", [lit "missing"], [lit "upper"],
    [[(lit "default", lit "d")]]⟩

/-- Parsed form of `missing|upper`. -/
def c1VarPlain : TVariable :=
  ⟨lit "missing|upper", lit "missing", [lit "missing"], [lit "upper"], [[]]⟩

/-- Witness for C1 at concrete inputs: the default `d` is uppercased to `D`
by the chain; without a default the placeholder becomes the empty string. -/
theorem C1_missing_path_fallback_witness :
    formattedString ⟨lit "see \x7bmissing|upper:default=d\x7d", c1DataEmpty,
        [c1VarDefault], false⟩ = .ok (lit "see D") ∧
    formattedString ⟨lit "see \x7bmissing|upper\x7d", c1DataEmpty,
        [c1VarPlain], false⟩ = .ok (lit "see ") := by
  constructor
  · exact ((C1_missing_path_fallback c1VarDefault c1DataEmpty
      (lit "see \x7bmissing|upper:default=d\x7d") (Or.inl rfl)).2 (lit "d") rfl
        false).trans (by rfl)
  · exact ((C1_missing_path_fallback c1VarPlain c1DataEmpty
      (lit "see \x7bmissing|upper\x7d") (Or.inl rfl)).1 rfl).trans (by rfl)

/-- C2: code evaluation at the failing input.  `{v|list}` over
`{"v": ["a", "b"]}` renders `"a, b"`: `get_value` fans the chain out over
the elements unconditionally, although `ListTemplateFilter` declares
`processes_list_as_whole` and, applied to the whole list, would render
`<ul><li>a</li><li>b</li></ul>` — the renderer never consults the
declaration. -/
theorem C2_per_element_fanout_eval :
    renderTemplate (lit "\x7bv|list\x7d")
        (.objV [(lit "v", .listV [.strV (lit "a"), .strV (lit "b")])]) false =
      .ok (lit "a, b") ∧
    processesListAsWhole .listF = true ∧
    filterRendered .listF (lit "list") (.listV [.strV (lit "a"), .strV (lit "b")]) [] =
      .ok (.strV (lit "<ul><li>a</li><li>b</li></ul>")) :=
  ⟨rfl, rfl, rfl⟩

/-- A member of the body list whose parse fails makes the whole
construction loop fail. -/
theorem mapVars_error_of_mem {body : Str} {e : PyErr} :
    ∀ {bodies : List Str}, body ∈ bodies → mkTVariable body = .error e →
    ∃ e', mapVars bodies = .error e' := by
  intro bodies
  induction bodies with
  | nil => intro h; cases h
  | cons b rest ih =>
    intro hmem hbad
    cases hmem with
    | head => exact ⟨e, by simp [mapVars, hbad, exceptBind_error]⟩
    | tail _ hmem' =>
      cases hb : mkTVariable b with
      | error e2 => exact ⟨e2, by simp [mapVars, hb, exceptBind_error]⟩
      | ok v =>
        obtain ⟨e', he'⟩ := ih hmem' hbad
        exact ⟨e', by simp [mapVars, hb, he', exceptBind_ok, exceptBind_error]⟩

/-- C3 counterexample: the claim states a malformed placeholder never
aborts rendering of the whole template, but rendering `x {bad-var} y`
(whose only variable fails `get_keys` with `VariableSyntaxError`, a
`ValueError`) aborts the entire template with that `ValueError` — the
well-formed remainder is not rendered. -/
theorem C3_counterexample :
    renderTemplate (lit "x \x7bbad-var\x7d y") (.objV []) false =
      .error .valueError := rfl

/-- C3 (amended): a variable that fails to parse with
`VariableSyntaxError` is not recovered per variable: template construction
(`TemplateString.get_variables`) re-raises it, so rendering the whole
template aborts and produces no output; the per-variable fallback policy
applies only to errors raised while resolving or rendering an already
parsed variable. -/
theorem C3_parse_error_aborts_template (s : Str) (data : Value) (se : Bool)
    (bodies : List Str) (body : Str) (e : PyErr)
    (hb : extractBodies (htmlUnescape s) = .ok bodies)
    (hmem : body ∈ bodies) (hbad : mkTVariable body = .error e) :
    ∀ r, renderTemplate s data se ≠ .ok r := by
  obtain ⟨e', he'⟩ := mapVars_error_of_mem hmem hbad
  intro r
  simp [renderTemplate, mkTemplateString, getVariablesE, hb, he', exceptBind_ok,
    exceptBind_error]

/-- Witness for the amended C3 at the concrete input `x {bad-var} y`. -/
theorem C3_parse_error_aborts_template_witness :
    renderTemplate (lit "x \x7bbad-var\x7d y") (.objV []) false ≠ .ok (lit "x  y") :=
  C3_parse_error_aborts_template (lit "x \x7bbad-var\x7d y") (.objV []) false
    [lit "bad-var"] (lit "bad-var") .valueError rfl (List.mem_singleton.mpr rfl) rfl
    (lit "x  y")

/-- The required-key loop only ever fails with `ValueError`. -/
theorem requireAll_error_val {cfg : FilterConfig} :
    ∀ {l : List Str} {e : PyErr}, requireAll cfg l = .error e → e = .valueError := by
  intro l
  induction l with
  | nil => intro e h; simp [requireAll] at h
  | cons o rest ih =>
    intro e h
    simp only [requireAll] at h
    split at h
    · exact ih h
    · injection h with h2
      exact h2.symm

/-- The required-key loop succeeds when every required key is configured
with a truthy (non-empty) value. -/
theorem requireAll_ok_of {cfg : FilterConfig} :
    ∀ {l : List Str}, (∀ o ∈ l, configTruthy (getConfiguration cfg o) = true) →
    requireAll cfg l = .ok () := by
  intro l
  induction l with
  | nil => intro _; rfl
  | cons o rest ih =>
    intro h
    simp [requireAll, h o (List.mem_cons_self o rest)]
    exact ih fun o' ho' => h o' (List.mem_cons_of_mem o ho')

/-- The unknown-key loop succeeds when every key is legal. -/
theorem checkKeys_ok_of {cls : FilterClass} :
    ∀ {ks : List Str}, (∀ k ∈ ks, legalKey cls k = true) → checkKeys cls ks = .ok () := by
  intro ks
  induction ks with
  | nil => intro _; rfl
  | cons k rest ih =>
    intro h
    simp [checkKeys, h k (List.mem_cons_self k rest)]
    exact ih fun k' hk' => h k' (List.mem_cons_of_mem k hk')

/-- The unknown-key loop fails with `ValueError` when some key is
illegal. -/
theorem checkKeys_error_of_mem {cls : FilterClass} {k : Str} :
    ∀ {ks : List Str}, k ∈ ks → legalKey cls k = false →
    checkKeys cls ks = .error .valueError := by
  intro ks
  induction ks with
  | nil => intro h; cases h
  | cons b rest ih =>
    intro hmem hleg
    cases hmem with
    | head => simp [checkKeys, hleg]
    | tail _ hmem' =>
      cases hb : legalKey cls b with
      | false => simp [checkKeys, hb]
      | true => simpa [checkKeys, hb] using ih hmem' hleg

/-- C7 (amended): a configuration key outside
`required ∪ allowed ∪ {default, subfield, limit}` makes filter construction
fail with `FilterConfigurationError` (a `ValueError`); a configuration
whose keys are all legal and whose required keys are present with
non-empty values constructs without error.  (The code checks required
values for truthiness, so a required key present with an empty value also
fails — the correction to the claim.) -/
theorem C7_configuration_validation (cls : FilterClass) (cfg : FilterConfig) :
    ((∃ k, k ∈ alistKeys cfg ∧ legalKey cls k = false) →
      checkConfiguration cls cfg = .error .valueError) ∧
    ((∀ k ∈ alistKeys cfg, legalKey cls k = true) →
      (∀ o ∈ neededOptions cls, configTruthy (getConfiguration cfg o) = true) →
      checkConfiguration cls cfg = .ok ()) := by
  constructor
  · rintro ⟨k, hk, hleg⟩
    cases h1 : requireAll cfg (neededOptions cls) with
    | error e =>
      have he := requireAll_error_val h1
      subst he
      simp [checkConfiguration, h1, exceptBind_error]
    | ok u =>
      cases u
      simp [checkConfiguration, h1, exceptBind_ok, neededAttributes, requireAll]
      exact checkKeys_error_of_mem hk hleg
  · intro hleg hreq
    have h1 : requireAll cfg (neededOptions cls) = .ok () := requireAll_ok_of hreq
    simp [checkConfiguration, h1, exceptBind_ok, neededAttributes, requireAll]
    exact checkKeys_ok_of hleg

/-- The configuration of the C7 counterexample: only legal keys for the
`bool` filter, both required options present, `o0` empty. -/
def c7Cfg : FilterConfig := [(lit "o0", []), (lit "o1", lit "y")]

/-- C7 counterexample: the claim as stated is false — a configuration with
only legal keys in which every required key is present still fails
construction, because the required-option check tests truthiness and `o0`
is present with an empty value. -/
theorem C7_counterexample :
    checkConfiguration .boolF c7Cfg = .error .valueError ∧
    (alistKeys c7Cfg).all (legalKey .boolF) = true ∧
    (neededOptions .boolF).all (fun o => (alistKeys c7Cfg).contains o) = true :=
  ⟨rfl, rfl, rfl⟩

/-- Witness for the amended C7 at concrete inputs: an unknown key fails a
`list` filter's construction, and a fully supplied `bool` configuration
constructs. -/
theorem C7_configuration_validation_witness :
    checkConfiguration .listF [(lit "bogus", lit "x")] = .error .valueError ∧
    checkConfiguration .boolF [(lit "o0", lit "a"), (lit "o1", lit "b")] = .ok () := by
  constructor
  · exact (C7_configuration_validation .listF [(lit "bogus", lit "x")]).1
      ⟨lit "bogus", by simp [alistKeys], by decide⟩
  · exact (C7_configuration_validation .boolF
      [(lit "o0", lit "a"), (lit "o1", lit "b")]).2 (by decide) (by decide)

/-- C6: quote-aware option splitting — parsing the placeholder
`{v|badge:tt="a, b=c"}` yields exactly one filter `badge` with exactly one
named option `tt` whose value is `a, b=c` (quotes stripped, the embedded
comma and equals sign preserved), not two options. -/
theorem C6_quote_aware_option_splitting :
    getVariablesE (lit "\x7bv|badge:tt=\"a, b=c\"\x7d") =
      .ok [{ raw := lit "v|badge:tt=\"a, b=c\"", varName := lit "v", keys := [lit "v"],
             valueFilters := [lit "badge"],
             filterConfigs := [[(lit "tt", lit "a, b=c")]] }] := rfl

/-- C9: in nested path resolution, indexing an intermediate value that is
not indexable by a non-digit key (`TypeError`) silently keeps the current
value and continues with the remaining keys, instead of raising
`KeyNotFound`/`IndexNotFound`. -/
theorem C9_type_error_silently_keeps_value (value : Value) (key : Str)
    (rest : List Str) (ht : pyGetItem value key = .error .typeError)
    (hd : isPyDigit key = false) :
    getNestedFrom value (key :: rest) = getNestedFrom value rest := by
  simp [getNestedFrom, nestedStep, ht, hd]

/-- Witness for C9: resolving key `b` inside the string value `x` keeps
`x`, so the whole walk yields the last successfully resolved value. -/
theorem C9_type_error_silently_keeps_value_witness :
    pyGetItem (.strV (lit "x")) (lit "b") = .error .typeError ∧
    getNestedFrom (.strV (lit "x")) [lit "b"] = .ok (.strV (lit "x")) :=
  ⟨rfl, (C9_type_error_silently_keeps_value (.strV (lit "x")) (lit "b") [] rfl
    rfl).trans rfl⟩

/-- Whether an `Except` computation succeeded. -/
def exceptOk : Except ε α → Bool
  | .ok _ => true
  | .error _ => false

/-- The trivial collaborator record: no UI elements, no pages, a fixed
link replacement. -/
def trivialCollab : PreRenderCollab :=
  ⟨fun _ => none, fun _ => none, fun _ _ => lit "LINKHTML"⟩

/-- The C4 counterexample input: an unbalanced `[[start_block]]` next to a
code block whose body carries an HTML-escaped `[[end_block]]`. -/
def c4Text : Str := lit "[[start_block]][[start_code]]&#91;&#91;end_block]][[end_code]]"

set_option maxRecDepth 8000 in
/-- C4 counterexample: the claim as stated is false.  In this input the
number of `[[start_block]]` tokens (one) differs from the number of
`[[end_block]]` tokens (zero), yet markup pre-rendering succeeds instead
of failing with `StructuralTagError`: the code-block pass runs first and
its entity unescaping resurrects a literal `[[end_block]]` inside the
rendered `<code>` element, so the balance check — which runs on the text
after the code-block pass — passes. -/
theorem C4_counterexample :
    (containerFindAll (c4Text.length + 1) c4Text).count (CAction.startA, CKind.blockK) = 1 ∧
    (containerFindAll (c4Text.length + 1) c4Text).count (CAction.endA, CKind.blockK) = 0 ∧
    exceptOk (getPreRenderedText trivialCollab c4Text) = true :=
  ⟨rfl, rfl, rfl⟩

/-- C4 (amended): the balanced-tag invariant holds for the text as it
stands after the code-block pass — whenever the container-token counts of
that text differ (for blocks or for cells), the containers pass raises
`StructuralTagError` (`PreRenderError("Container tags are not
well-formed.")`) before producing its HTML, and the pipeline surfaces the
error to the caller. -/
theorem C4_unbalanced_after_code_pass_fails (t t' : Str) (collab : PreRenderCollab)
    (h1 : createCodeBlocks t = .ok t')
    (h2 : (containerFindAll (t'.length + 1) t').count (CAction.startA, CKind.blockK) ≠
        (containerFindAll (t'.length + 1) t').count (CAction.endA, CKind.blockK) ∨
      (containerFindAll (t'.length + 1) t').count (CAction.startA, CKind.cellK) ≠
        (containerFindAll (t'.length + 1) t').count (CAction.endA, CKind.cellK)) :
    getPreRenderedText collab t =
      .error (.preRender (lit "Container tags are not well-formed.")) := by
  have hint : checkTagsIntegrity t' = false := by
    unfold checkTagsIntegrity
    cases h2 with
    | inl h => simp [beq_eq_false_iff_ne.mpr h]
    | inr h => simp [beq_eq_false_iff_ne.mpr h]
  cases t with
  | nil =>
    have h0 : createCodeBlocks ([] : Str) = .ok [] := rfl
    rw [h0] at h1
    injection h1 with h1'
    rw [← h1'] at hint
    exact absurd hint (by decide)
  | cons c cs =>
    simp [getPreRenderedText, List.isEmpty, h1, exceptBind_ok, exceptBind_error,
      createContainers, hint]

/-- Witness for the amended C4 at the concrete input `[[start_block]]x`
(the code-block pass leaves it unchanged; one start, zero ends). -/
theorem C4_unbalanced_after_code_pass_fails_witness :
    getPreRenderedText trivialCollab (lit "[[start_block]]x") =
      .error (.preRender (lit "Container tags are not well-formed.")) :=
  C4_unbalanced_after_code_pass_fails (lit "[[start_block]]x")
    (lit "[[start_block]]x") trivialCollab rfl (Or.inl (by decide))

/-- Concatenates `n` copies of a string. -/
def repStr : Nat → Str → Str
  | 0, _ => []
  | n + 1, s => s ++ repStr n s

/-- The code-block rewrite loop never performs more iterations than its
remaining fuel allows: the final `security_breaker` is bounded. -/
theorem codeBlocksGo_steps_le :
    ∀ (fuel : Nat) (text : Str) (steps : Nat),
    (createCodeBlocksGo fuel text steps).2 ≤ steps + fuel := by
  intro fuel
  induction fuel with
  | zero => intro text steps; simp [createCodeBlocksGo]
  | succ k ih =>
    intro text steps
    simp only [createCodeBlocksGo]
    split
    · exact Nat.le_add_right steps (k + 1)
    · split
      · exact Nat.le_add_right steps (k + 1)
      · split
        · exact (by omega : steps + 1 ≤ steps + (k + 1))
        · exact le_trans (ih _ (steps + 1)) (by omega)

/-- The stuck suffix of the wrap pass for the C5 failing input: a
`[[CELL_START:...]]` marker not followed by any `[[CELL_END]]`. -/
def c5StuckText : Str :=
  lit "[[CELL_START:class=\"cell-block\" style=\"flex: 1; min-width: 0;\"]]"

/-- At the stuck suffix the outer wrap loop reproduces its own state
exactly (the source's `pos` stops advancing), so it exhausts any fuel. -/
theorem wrapOuter_stuck : ∀ (n : Nat) (acc : Str),
    wrapOuterGo n c5StuckText acc = none := by
  intro n
  induction n with
  | zero => intro acc; rfl
  | succ k ih => intro acc; exact ih (acc ++ [])

/-- A prefix test against a longer pattern entails the test against the
pattern's own prefix. -/
theorem startsWithL_append_left :
    ∀ (a b s : Str), startsWithL (a ++ b) s = true → startsWithL a s = true := by
  intro a
  induction a with
  | nil => intro b s _; rfl
  | cons x xs ih =>
    intro b s h
    cases s with
    | nil => simp [startsWithL] at h
    | cons c cs =>
      simp only [List.cons_append, startsWithL, Bool.and_eq_true] at h ⊢
      exact ⟨h.1, ih b cs h.2⟩

/-- Transitivity of the prefix test. -/
theorem startsWithL_trans :
    ∀ (a p s : Str), startsWithL a p = true → startsWithL p s = true →
    startsWithL a s = true := by
  intro a
  induction a with
  | nil => intro p s _ _; rfl
  | cons x xs ih =>
    intro p s h1 h2
    cases p with
    | nil => simp [startsWithL] at h1
    | cons y ys =>
      cases s with
      | nil => simp [startsWithL] at h2
      | cons c cs =>
        simp only [startsWithL, Bool.and_eq_true, beq_iff_eq] at h1 h2 ⊢
        exact ⟨h1.1.trans h2.1, ih ys cs h1.2 h2.2⟩

/-- A non-occurring pattern is in particular not a prefix. -/
theorem startsWithL_false_of_occurs_false {p s : Str}
    (h : occursL p s = false) : startsWithL p s = false := by
  cases s with
  | nil => exact h
  | cons c cs =>
    simp only [occursL, Bool.or_eq_false_iff] at h
    exact h.1

/-- If the pattern does not occur in a list, it does not occur in its
tail. -/
theorem occursL_cons_false {p : Str} {c : Char} {cs : Str}
    (h : occursL p (c :: cs) = false) : occursL p cs = false := by
  simp only [occursL, Bool.or_eq_false_iff] at h
  exact h.2

/-- Non-occurrence is preserved by `drop`. -/
theorem occursL_drop_false {p : Str} :
    ∀ (t : Str) (j : Nat), occursL p t = false → occursL p (t.drop j) = false := by
  intro t
  induction t with
  | nil => intro j h; cases j <;> exact h
  | cons c cs ih =>
    intro j h
    cases j with
    | zero => exact h
    | succ j' => exact ih j' (occursL_cons_false h)

/-- Non-occurrence is preserved by `dropWhile`. -/
theorem occursL_dropWhile_false {p : Str} (q : Char → Bool) :
    ∀ (t : Str), occursL p t = false → occursL p (t.dropWhile q) = false := by
  intro t
  induction t with
  | nil => intro h; exact h
  | cons c cs ih =>
    intro h
    simp only [List.dropWhile]
    split
    · exact ih (occursL_cons_false h)
    · exact h

/-- A prefix test against any extension of `[[` fails on a `[[`-free
string. -/
theorem startsWithL_bb_ext_false {s : Str} (q : Str)
    (h : occursL (lit "[[") s = false) :
    startsWithL (lit "[[" ++ q) s = false := by
  cases hc : startsWithL (lit "[[" ++ q) s with
  | false => rfl
  | true =>
    have := startsWithL_append_left (lit "[[") q s hc
    rw [startsWithL_false_of_occurs_false h] at this
    cases this

/-- Generic search failure: when every anchored attempt on a `[[`-free
string fails, the search over a `[[`-free string fails. -/
theorem genSearchFrom_none_of {α : Type} {m : Str → Option α}
    (hm : ∀ s', occursL (lit "[[") s' = false → m s' = none) :
    ∀ (s : Str) (i : Nat), occursL (lit "[[") s = false →
    genSearchFrom m i s = none := by
  intro s
  induction s with
  | nil =>
    intro i h
    simp [genSearchFrom, hm [] h]
  | cons c cs ih =>
    intro i h
    simp only [genSearchFrom, hm (c :: cs) h]
    exact ih (i + 1) (occursL_cons_false h)

/-- `codeStartMatchAt` fails on `[[`-free text. -/
theorem codeStartMatchAt_none {s : Str} (h : occursL (lit "[[") s = false) :
    codeStartMatchAt s = none := by
  have h1 : startsWithL (lit "[[start_code") s = false :=
    startsWithL_bb_ext_false (lit "start_code") h
  simp [codeStartMatchAt, h1]

/-- `containerMatchAt` fails on `[[`-free text. -/
theorem containerMatchAt_none {s : Str} (h : occursL (lit "[[") s = false) :
    containerMatchAt s = none := by
  have h1 : startsWithL (lit "[[start_block") s = false :=
    startsWithL_bb_ext_false (lit "start_block") h
  have h2 : startsWithL (lit "[[start_cell") s = false :=
    startsWithL_bb_ext_false (lit "start_cell") h
  have h3 : startsWithL (lit "[[end_block") s = false :=
    startsWithL_bb_ext_false (lit "end_block") h
  have h4 : startsWithL (lit "[[end_cell") s = false :=
    startsWithL_bb_ext_false (lit "end_cell") h
  simp [containerMatchAt, h1, h2, h3, h4]

/-- `litMatchAt` for a pattern extending `[[` fails on `[[`-free text. -/
theorem litMatchAt_bb_none {s : Str} (q : Str) (h : occursL (lit "[[") s = false) :
    litMatchAt (lit "[[" ++ q) s = none := by
  simp [litMatchAt, startsWithL_bb_ext_false q h]

/-- `uiMatchAt` fails on `[[`-free text. -/
theorem uiMatchAt_none {s : Str} (h : occursL (lit "[[") s = false) :
    uiMatchAt s = none := by
  have h1 : startsWithL (lit "[[element|") s = false :=
    startsWithL_bb_ext_false (lit "element|") h
  simp [uiMatchAt, h1]

/-- `urlMatchAt` fails on `[[`-free text. -/
theorem urlMatchAt_none {s : Str} (h : occursL (lit "[[") s = false) :
    urlMatchAt s = none := by
  have h1 : startsWithL (lit "[[url|") s = false :=
    startsWithL_bb_ext_false (lit "url|") h
  simp [urlMatchAt, h1]

/-- `linkTemplateTail` fails on `[[`-free text. -/
theorem linkTemplateTail_none {s : Str} (tmpl : Str)
    (h : occursL (lit "[[") s = false) : linkTemplateTail s tmpl = none := by
  have hfa : startsWithL (lit "[[" ++ (tmpl ++ ['|'])) s = false :=
    startsWithL_bb_ext_false (tmpl ++ ['|']) h
  simp [linkTemplateTail, List.append_assoc, hfa]

/-- `linkMatchAt` fails on `[[`-free text. -/
theorem linkMatchAt_none {s : Str} (h : occursL (lit "[[") s = false) :
    linkMatchAt s = none := by
  simp [linkMatchAt, linkTemplateTail_none (lit "file") h,
    linkTemplateTail_none (lit "page") h, linkTemplateTail_none (lit "orcid") h,
    linkTemplateTail_none (lit "plotly") h]

/-- `cleanTagAt` fails on `[[`-free text. -/
theorem cleanTagAt_none {s : Str} (h : occursL (lit "[[") s = false) :
    cleanTagAt s = none := by
  have h1 : startsWithL (lit "[[start_cell") s = false :=
    startsWithL_bb_ext_false (lit "start_cell") h
  have h2 : startsWithL (lit "[[start_block") s = false :=
    startsWithL_bb_ext_false (lit "start_block") h
  have h3 : startsWithL (lit "[[end_cell") s = false :=
    startsWithL_bb_ext_false (lit "end_cell") h
  have h4 : startsWithL (lit "[[end_block") s = false :=
    startsWithL_bb_ext_false (lit "end_block") h
  simp [cleanTagAt, h1, h2, h3, h4]

/-- `cleanTag3At` fails on `[[`-free text. -/
theorem cleanTag3At_none {s : Str} (h : occursL (lit "[[") s = false) :
    cleanTag3At s = none := by
  have h1 : startsWithL (lit "[[CELL_START_") s = false :=
    startsWithL_bb_ext_false (lit "CELL_START_") h
  have h2 : startsWithL (lit "[[CELL_END_") s = false :=
    startsWithL_bb_ext_false (lit "CELL_END_") h
  have h3 : startsWithL (lit "[[start_") s = false :=
    startsWithL_bb_ext_false (lit "start_") h
  have h4 : startsWithL (lit "[[end_") s = false :=
    startsWithL_bb_ext_false (lit "end_") h
  simp [cleanTag3At, h1, h2, h3, h4]

/-- `cleanSub1At` fails on `[[`-free text. -/
theorem cleanSub1At_none {s : Str} (h : occursL (lit "[[") s = false) :
    cleanSub1At s = none := by
  have h1 : occursL (lit "[[") ((s.drop 3).dropWhile isPyWs) = false :=
    occursL_dropWhile_false isPyWs _ (occursL_drop_false s 3 h)
  simp [cleanSub1At, cleanTagAt_none h1]

/-- `cleanSub3At` fails on `[[`-free text. -/
theorem cleanSub3At_none {s : Str} (h : occursL (lit "[[") s = false) :
    cleanSub3At s = none := by
  simp [cleanSub3At, cleanTag3At_none h]

/-- `brTail` yields a suffix whose `[[`-freeness follows from the input's. -/
theorem brTail_bb_free {s r : Str} (h : occursL (lit "[[") s = false)
    (hb : brTail s = some r) : occursL (lit "[[") r = false := by
  unfold brTail at hb
  have hd : occursL (lit "[[") ((s.drop 3).dropWhile isPyWs) = false :=
    occursL_dropWhile_false isPyWs _ (occursL_drop_false s 3 h)
  split at hb
  · simp only [] at hb
    split at hb
    · injection hb with hb'
      subst hb'
      exact occursL_drop_false _ 2 hd
    · split at hb
      · injection hb with hb'
        subst hb'
        exact occursL_drop_false _ 1 hd
      · cases hb
  · cases hb

/-- `cleanSub4At` fails on `[[`-free text. -/
theorem cleanSub4At_none {s : Str} (h : occursL (lit "[[") s = false) :
    cleanSub4At s = none := by
  unfold cleanSub4At
  cases hb : brTail s with
  | none => rfl
  | some r1 =>
    have hr1 : occursL (lit "[[") r1 = false := brTail_bb_free h hb
    simp [cleanTag3At_none (occursL_dropWhile_false isPyWs r1 hr1)]

/-- A failed search means the anchored matcher fails at every position. -/
theorem genSearchFrom_none_elim {α : Type} {m : Str → Option α} :
    ∀ (s : Str) (i : Nat), genSearchFrom m i s = none → ∀ j, m (s.drop j) = none := by
  intro s
  induction s with
  | nil =>
    intro i h j
    cases hc : m [] with
    | none => cases j <;> exact hc
    | some a => simp [genSearchFrom, hc] at h
  | cons c cs ih =>
    intro i h j
    cases hc : m (c :: cs) with
    | some a => simp [genSearchFrom, hc] at h
    | none =>
      have h' : genSearchFrom m (i + 1) cs = none := by
        simpa [genSearchFrom, hc] using h
      cases j with
      | zero => exact hc
      | succ j' => exact ih (i + 1) h' j'

/-- `re.sub` is the identity when the matcher fails at every position. -/
theorem reSubGo_id {m : Str → Option (Nat × Str)} :
    ∀ (s : Str) (fuel : Nat), (∀ j, m (s.drop j) = none) → reSubGo m fuel s = s := by
  intro s
  induction s with
  | nil => intro fuel _; cases fuel <;> rfl
  | cons c cs ih =>
    intro fuel h
    cases fuel with
    | zero => rfl
    | succ k =>
      have h0 : m (c :: cs) = none := h 0
      simp only [reSubGo, h0]
      exact congrArg (c :: ·) (ih k fun j => h (j + 1))

/-- `reSub` is the identity when the matcher fails at every position. -/
theorem reSub_id {m : Str → Option (Nat × Str)} {s : Str}
    (h : ∀ j, m (s.drop j) = none) : reSub m s = s :=
  reSubGo_id s s.length h

/-- The code-block loop returns its input unchanged when no start token is
found. -/
theorem codeBlocksGo_none {t : Str} (hg : genSearch codeStartMatchAt t = none) :
    ∀ fuel steps, fuel ≠ 0 → createCodeBlocksGo fuel t steps = (.ok t, steps) := by
  intro fuel steps hf
  cases fuel with
  | zero => exact absurd rfl hf
  | succ k => simp [createCodeBlocksGo, hg]

/-- The containers loop returns its input unchanged when no container
token is found. -/
theorem containersLoopGo_none {t : Str} (hg : genSearch containerMatchAt t = none) :
    ∀ fuel bc titles, fuel ≠ 0 → containersLoopGo fuel t bc titles = .ok (t, titles) := by
  intro fuel bc titles hf
  cases fuel with
  | zero => exact absurd rfl hf
  | succ k => simp [containersLoopGo, hg]

/-- The UI-element loop returns its input unchanged when no token is
found. -/
theorem uiGo_none {collab : PreRenderCollab} {t : Str}
    (hg : genSearch uiMatchAt t = none) :
    ∀ fuel, fuel ≠ 0 → createUiElementsGo collab fuel t = .ok t := by
  intro fuel hf
  cases fuel with
  | zero => exact absurd rfl hf
  | succ k => simp [createUiElementsGo, hg]

/-- The URL loop returns its input unchanged when no token is found. -/
theorem urlGo_none {collab : PreRenderCollab} {t : Str}
    (hg : genSearch urlMatchAt t = none) :
    ∀ fuel, fuel ≠ 0 → createUrlsGo collab fuel t = .ok t := by
  intro fuel hf
  cases fuel with
  | zero => exact absurd rfl hf
  | succ k => simp [createUrlsGo, hg]

/-- The link loop returns its input unchanged when no token is found. -/
theorem linksGo_none {collab : PreRenderCollab} {t : Str}
    (hg : genSearch linkMatchAt t = none) :
    ∀ fuel, fuel ≠ 0 → createLinksGo collab fuel t = .ok t := by
  intro fuel hf
  cases fuel with
  | zero => exact absurd rfl hf
  | succ k => simp [createLinksGo, hg]

/-- The wrap pass returns its input unchanged when no cell marker is
found. -/
theorem wrapOuterGo_none {t : Str} (hg : findSub (lit "[[CELL_START:") t = none) :
    ∀ fuel acc, fuel ≠ 0 → wrapOuterGo fuel t acc = some (acc ++ t) := by
  intro fuel acc hf
  cases fuel with
  | zero => exact absurd rfl hf
  | succ k => simp [wrapOuterGo, hg]

/-- The integrity check passes when no container token is found. -/
theorem checkTagsIntegrity_of_none {t : Str}
    (hg : genSearch containerMatchAt t = none) : checkTagsIntegrity t = true := by
  simp [checkTagsIntegrity, containerFindAll, hg]

/-- Search for a `[[`-anchored literal fails on `[[`-free text. -/
theorem findSub_bb_none {t : Str} (q : Str) (h : occursL (lit "[[") t = false) :
    findSub (lit "[[" ++ q) t = none := by
  have hg : genSearchFrom (litMatchAt (lit "[[" ++ q)) 0 t = none :=
    genSearchFrom_none_of (fun s' hs' => litMatchAt_bb_none q hs') t 0 h
  simp [findSub, genSearch, hg]

/-- The CKEditor cleanup pass is the identity on `[[`-free text without an
empty-paragraph pattern. -/
theorem clean_bb_id {t : Str} (h : occursL (lit "[[") t = false)
    (h2 : genSearch cleanSub2At t = none) : cleanTemplateTagWrappers t = t := by
  have e1 : reSub cleanSub1At t = t :=
    reSub_id fun j => cleanSub1At_none (occursL_drop_false t j h)
  have e2 : reSub cleanSub2At t = t := reSub_id (genSearchFrom_none_elim t 0 h2)
  have e3 : reSub cleanSub3At t = t :=
    reSub_id fun j => cleanSub3At_none (occursL_drop_false t j h)
  have e4 : reSub cleanSub4At t = t :=
    reSub_id fun j => cleanSub4At_none (occursL_drop_false t j h)
  simp [cleanTemplateTagWrappers, e1, e2, e3, e4]

/-- The containers pass is the identity (registering no titles) on
`[[`-free text without an empty-paragraph pattern. -/
theorem createContainers_bb_id {t : Str} (h : occursL (lit "[[") t = false)
    (h2 : genSearch cleanSub2At t = none) : createContainers t = .ok (t, []) := by
  have hc : genSearch containerMatchAt t = none :=
    genSearchFrom_none_of (fun s' hs' => containerMatchAt_none hs') t 0 h
  have hint := checkTagsIntegrity_of_none hc
  have hclean := clean_bb_id h h2
  have hloop : containersLoopGo 51 t 0 [] = .ok (t, []) :=
    containersLoopGo_none hc 51 0 [] (by decide)
  have hf : findSub (lit "[[CELL_START:") t = none :=
    findSub_bb_none (lit "CELL_START:") h
  have hwrap : wrapOuterGo (t.length + 2) t [] = some ([] ++ t) :=
    wrapOuterGo_none hf (t.length + 2) [] (by omega)
  simp only [createContainers, hint, if_true, hclean, hloop, wrapCellsInRows, hwrap,
    List.nil_append]

/-- C8 (amended): the markup pre-renderer returns token-free input
unchanged provided the input also contains no empty-paragraph pattern
`<p>\s*</p>` — the CKEditor cleanup strips such paragraphs even when no
bracket token is present, which is the correction to the claim. -/
theorem C8_token_free_identity (t : Str) (collab : PreRenderCollab)
    (h : occursL (lit "[[") t = false)
    (hp : genSearch cleanSub2At t = none) :
    getPreRenderedText collab t = .ok t := by
  have hcode : createCodeBlocks t = .ok t := by
    have hg : genSearch codeStartMatchAt t = none :=
      genSearchFrom_none_of (fun s' hs' => codeStartMatchAt_none hs') t 0 h
    have := codeBlocksGo_none hg 51 0 (by decide)
    simp [createCodeBlocks, this]
  have hcont := createContainers_bb_id h hp
  have htoc : createToc t [] = t := by
    have hf : findSub (lit "[[toc]]") t = none := findSub_bb_none (lit "toc]]") h
    simp [createToc, hf]
  have hui : createUiElements collab t = .ok t := by
    have hg : genSearch uiMatchAt t = none :=
      genSearchFrom_none_of (fun s' hs' => uiMatchAt_none hs') t 0 h
    exact uiGo_none hg 51 (by decide)
  have hurl : createUrls collab t = .ok t := by
    have hg : genSearch urlMatchAt t = none :=
      genSearchFrom_none_of (fun s' hs' => urlMatchAt_none hs') t 0 h
    exact urlGo_none hg 51 (by decide)
  have hlink : createLinks collab t = .ok t := by
    have hg : genSearch linkMatchAt t = none :=
      genSearchFrom_none_of (fun s' hs' => linkMatchAt_none hs') t 0 h
    exact linksGo_none hg 51 (by decide)
  cases t with
  | nil => rfl
  | cons c cs =>
    simp only [getPreRenderedText, List.isEmpty, if_false, Bool.false_eq_true]
    rw [hcode]
    simp only [exceptBind_ok]
    rw [hcont]
    simp only [exceptBind_ok]
    rw [htoc, hui]
    simp only [exceptBind_ok]
    rw [hurl]
    simp only [exceptBind_ok]
    exact hlink

/-- C8 counterexample: the claim as stated is false — `<p></p>x` contains
no bracket token of any kind, yet pre-rendering returns `x`, not the input
unchanged: `_clean_template_tag_wrappers` removes empty `<p></p>` pairs
unconditionally. -/
theorem C8_counterexample :
    occursL (lit "[[") (lit "<p></p>x") = false ∧
    getPreRenderedText trivialCollab (lit "<p></p>x") = .ok (lit "x") ∧
    ¬ (lit "x" = lit "<p></p>x") :=
  ⟨rfl, rfl, by decide⟩

/-- Witness for the amended C8: token-free text without empty paragraphs
passes through every pre-rendering pass unchanged. -/
theorem C8_token_free_identity_witness :
    getPreRenderedText trivialCollab (lit "hello <b>world</b>") =
      .ok (lit "hello <b>world</b>") :=
  C8_token_free_identity (lit "hello <b>world</b>") trivialCollab rfl rfl

/-- Container tokens without parameters, the four combined kinds of the
`container_regex` family. -/
inductive CTok where
  | sb
  | eb
  | sc
  | ec
deriving DecidableEq

/-- The literal text of a parameterless container token. -/
def ctokStr : CTok → Str
  | .sb => lit "[[start_block]]"
  | .eb => lit "[[end_block]]"
  | .sc => lit "[[start_cell]]"
  | .ec => lit "[[end_cell]]"

/-- The action group a token matches. -/
def ctokAct : CTok → CAction
  | .sb => .startA
  | .sc => .startA
  | .eb => .endA
  | .ec => .endA

/-- The kind group a token matches. -/
def ctokKind : CTok → CKind
  | .sb => .blockK
  | .eb => .blockK
  | .sc => .cellK
  | .ec => .cellK

/-- A text built from container tokens, each preceded by a gap. -/
def famCat : List (Str × CTok) → Str
  | [] => []
  | (g, t) :: rest => g ++ (ctokStr t ++ famCat rest)

/-- No rewrite-relevant pattern is anchored at the head of `s`: neither a
container token nor a `BLOCK_OPTIONS` marker matches there. -/
def noBadAt (s : Str) : Prop :=
  containerMatchAt s = none ∧ blockOptionsMatchAt s = none

/-- Every position strictly inside `P` is safe no matter what text follows. -/
def segOk (P : Str) : Prop :=
  ∀ j, j < P.length → ∀ T, noBadAt (P.drop j ++ T)

/-- A conservative head check: the suffix beginning here cannot anchor a
container token or marker, whatever is appended (decided from at most three
characters). -/
def headSafe : Str → Bool
  | [] => false
  | c :: rest =>
    if c ≠ '[' then true
    else match rest with
      | [] => false
      | c2 :: rest2 =>
        if c2 ≠ '[' then true
        else match rest2 with
          | [] => false
          | c3 :: _ => !(c3 == 's' || c3 == 'e' || c3 == 'B')

/-- `headSafe` at every suffix (within the segment). -/
def segOkB : Str → Bool
  | [] => true
  | c :: rest => headSafe (c :: rest) && segOkB rest

/-- A prefix test fails when the pattern's and subject's heads differ. -/
theorem startsWithL_head_ne {p c : Char} {ps cs : Str} (h : p ≠ c) :
    startsWithL (p :: ps) (c :: cs) = false := by
  simp [startsWithL, h]

/-- A failed prefix test stays failed for any longer pattern. -/
theorem startsWithL_ext_false {p q s : Str} (h : startsWithL p s = false) :
    startsWithL (p ++ q) s = false := by
  induction p generalizing s with
  | nil => simp [startsWithL] at h
  | cons a ps ih =>
    cases s with
    | nil => rfl
    | cons c cs =>
      rcases Bool.and_eq_false_iff.mp h with h1 | h1
      · show ((a == c) && startsWithL (ps ++ q) cs) = false
        simp [h1]
      · show ((a == c) && startsWithL (ps ++ q) cs) = false
        simp [ih h1]

/-- A successful prefix test decomposes the subject. -/
theorem startsWithL_decomp {p : Str} :
    ∀ {s : Str}, startsWithL p s = true → s = p ++ s.drop p.length := by
  induction p with
  | nil => intro s _; simp
  | cons a ps ih =>
    intro s h
    cases s with
    | nil => simp [startsWithL] at h
    | cons c cs =>
      simp only [startsWithL] at h
      simp at h
      obtain ⟨h1, h2⟩ := h
      show c :: cs = a :: (ps ++ cs.drop ps.length)
      rw [← h1]
      exact congrArg (a :: ·) (ih h2)

/-- A pattern beginning with a character absent from the subject never
occurs in it. -/
theorem occursL_single_false {a : Char} {q : Str} :
    ∀ {s : Str}, (∀ c ∈ s, c ≠ a) → occursL (a :: q) s = false := by
  intro s
  induction s with
  | nil => intro _; rfl
  | cons c cs ih =>
    intro h
    have hc : a ≠ c := fun e => h c (List.mem_cons_self c cs) e.symm
    simp [occursL, startsWithL_head_ne hc, ih fun d hd => h d (List.mem_cons_of_mem c hd)]

/-- A suffix beginning with a character other than `[` is safe. -/
theorem noBadAt_head_ne {c : Char} (hc : c ≠ '[') (s : Str) : noBadAt (c :: s) := by
  have hne : ('[' : Char) ≠ c := fun e => hc e.symm
  constructor
  · have e1 : lit "[[start_block" = '[' :: lit "[start_block" := rfl
    have e2 : lit "[[start_cell" = '[' :: lit "[start_cell" := rfl
    have e3 : lit "[[end_block" = '[' :: lit "[end_block" := rfl
    have e4 : lit "[[end_cell" = '[' :: lit "[end_cell" := rfl
    simp [containerMatchAt, e1, e2, e3, e4, startsWithL_head_ne hne]
  · have e5 : lit "[[BLOCK_OPTIONS:" = '[' :: lit "[BLOCK_OPTIONS:" := rfl
    simp [blockOptionsMatchAt, e5, startsWithL_head_ne hne]

/-- A suffix whose second character is not `[` is safe. -/
theorem noBadAt_two {c : Char} (hc : c ≠ '[') (s : Str) : noBadAt ('[' :: c :: s) := by
  have hne : ('[' : Char) ≠ c := fun e => hc e.symm
  constructor
  · have e1 : lit "[[start_block" = '[' :: '[' :: lit "start_block" := rfl
    have e2 : lit "[[start_cell" = '[' :: '[' :: lit "start_cell" := rfl
    have e3 : lit "[[end_block" = '[' :: '[' :: lit "end_block" := rfl
    have e4 : lit "[[end_cell" = '[' :: '[' :: lit "end_cell" := rfl
    simp [containerMatchAt, e1, e2, e3, e4, startsWithL, hne]
  · have e5 : lit "[[BLOCK_OPTIONS:" = '[' :: '[' :: lit "BLOCK_OPTIONS:" := rfl
    simp [blockOptionsMatchAt, e5, startsWithL, hne]

/-- A suffix `[[c…` whose third character is none of `s`, `e`, `B` is safe. -/
theorem noBadAt_three {c : Char} (h1 : c ≠ 's') (h2 : c ≠ 'e') (h3 : c ≠ 'B')
    (s : Str) : noBadAt ('[' :: '[' :: c :: s) := by
  have g1 : ('s' : Char) ≠ c := fun e => h1 e.symm
  have g2 : ('e' : Char) ≠ c := fun e => h2 e.symm
  have g3 : ('B' : Char) ≠ c := fun e => h3 e.symm
  constructor
  · have e1 : lit "[[start_block" = '[' :: '[' :: 's' :: lit "tart_block" := rfl
    have e2 : lit "[[start_cell" = '[' :: '[' :: 's' :: lit "tart_cell" := rfl
    have e3 : lit "[[end_block" = '[' :: '[' :: 'e' :: lit "nd_block" := rfl
    have e4 : lit "[[end_cell" = '[' :: '[' :: 'e' :: lit "nd_cell" := rfl
    simp [containerMatchAt, e1, e2, e3, e4, startsWithL, g1, g2]
  · have e5 : lit "[[BLOCK_OPTIONS:" = '[' :: '[' :: 'B' :: lit "LOCK_OPTIONS:" := rfl
    simp [blockOptionsMatchAt, e5, startsWithL, g3]

/-- A `headSafe` segment head is safe regardless of the appended tail. -/
theorem noBadAt_of_headSafe :
    ∀ {s : Str}, headSafe s = true → ∀ T, noBadAt (s ++ T) := by
  intro s h T
  match s with
  | [] => simp [headSafe] at h
  | c :: rest =>
    by_cases hc : c = '['
    · subst hc
      match rest with
      | [] => simp [headSafe] at h
      | c2 :: rest2 =>
        by_cases hc2 : c2 = '['
        · subst hc2
          match rest2 with
          | [] => simp [headSafe] at h
          | c3 :: rest3 =>
            simp [headSafe] at h
            exact noBadAt_three h.1.1 h.1.2 h.2 _
        · exact noBadAt_two hc2 _
    · exact noBadAt_head_ne hc _

/-- A `segOkB` segment is safe at every interior position. -/
theorem segOk_of_segOkB : ∀ {S : Str}, segOkB S = true → segOk S := by
  intro S
  induction S with
  | nil => intro _ j hj; simp at hj
  | cons c rest ih =>
    intro h j hj T
    simp only [segOkB] at h
    simp at h
    obtain ⟨h1, h2⟩ := h
    cases j with
    | zero => exact noBadAt_of_headSafe h1 T
    | succ j' => exact ih h2 j' (by simpa using hj) T

/-- A segment free of `[` is safe at every interior position. -/
theorem segOk_of_noBr : ∀ {S : Str}, (∀ c ∈ S, c ≠ '[') → segOk S := by
  intro S
  induction S with
  | nil => intro _ j hj; simp at hj
  | cons c rest ih =>
    intro h j hj T
    cases j with
    | zero => exact noBadAt_head_ne (h c (List.mem_cons_self c rest)) _
    | succ j' =>
      exact ih (fun d hd => h d (List.mem_cons_of_mem c hd)) j' (by simpa using hj) T

/-- Splitting a drop across an append, below the left part's length. -/
theorem drop_append_lt {P T : Str} {j : Nat} (h : j < P.length) :
    (P ++ T).drop j = P.drop j ++ T := by
  rw [List.drop_append_eq_append_drop, Nat.sub_eq_zero_of_le (Nat.le_of_lt h),
    List.drop_zero]

/-- Safety composes across append. -/
theorem segOk_append {P S : Str} (hP : segOk P) (hS : segOk S) : segOk (P ++ S) := by
  intro j hj T
  by_cases hlt : j < P.length
  · have e : (P ++ S).drop j ++ T = P.drop j ++ (S ++ T) := by
      rw [drop_append_lt hlt, List.append_assoc]
    rw [e]
    exact hP j hlt (S ++ T)
  · have hge : P.length ≤ j := Nat.le_of_not_lt hlt
    have e : (P ++ S).drop j = S.drop (j - P.length) := by
      rw [List.drop_append_eq_append_drop, List.drop_eq_nil_of_le hge, List.nil_append]
    rw [e]
    have hj' : j - P.length < S.length := by
      have := List.length_append P S ▸ hj
      omega
    exact hS (j - P.length) hj' T

/-- A search skips a stretch of positions where the matcher fails. -/
theorem genSearchFrom_append {α : Type} {m : Str → Option α} :
    ∀ (P T : Str) (i : Nat), (∀ j, j < P.length → m ((P ++ T).drop j) = none) →
      genSearchFrom m i (P ++ T) = genSearchFrom m (i + P.length) T := by
  intro P
  induction P with
  | nil => intro T i _; simp
  | cons c P' ih =>
    intro T i h
    have h0 : m (c :: (P' ++ T)) = none := by
      have := h 0 (by simp)
      simpa using this
    show genSearchFrom m i (c :: (P' ++ T)) = _
    rw [genSearchFrom, h0]
    have := ih T (i + 1) (fun j hj => by
      have := h (j + 1) (by simpa using Nat.succ_lt_succ hj)
      simpa using this)
    rw [this]
    have harith : i + (c :: P').length = i + 1 + P'.length := by
      simp only [List.length_cons]
      omega
    rw [harith]

/-- A search whose matcher succeeds at the head reports the current index. -/
theorem genSearchFrom_head {α : Type} {m : Str → Option α} {s : Str} {a : α}
    (h : m s = some a) (hne : s ≠ []) (i : Nat) : genSearchFrom m i s = some (i, a) := by
  cases s with
  | nil => exact absurd rfl hne
  | cons c cs => rw [genSearchFrom, h]

/-- A matcher failing at every suffix makes the search fail. -/
theorem genSearchFrom_none_intro {α : Type} {m : Str → Option α} :
    ∀ (s : Str) (i : Nat), (∀ j, m (s.drop j) = none) → genSearchFrom m i s = none := by
  intro s
  induction s with
  | nil =>
    intro i h
    have h0 : m [] = none := by simpa using h 0
    rw [genSearchFrom, h0]
  | cons c cs ih =>
    intro i h
    have h0 : m (c :: cs) = none := by simpa using h 0
    rw [genSearchFrom, h0]
    exact ih (i + 1) (fun j => by simpa using h (j + 1))

/-- The container regex matches a parameterless token anchored at the head,
for any tail. -/
theorem containerMatchAt_tok (t : CTok) (M : Str) :
    containerMatchAt (ctokStr t ++ M) =
      some (ctokAct t, ctokKind t, none, (ctokStr t).length) := by
  cases t <;> rfl

/-- Leftmost container search on a safe stretch followed by a token finds
the token. -/
theorem genSearch_family {Q : Str} (hQ : segOk Q) (t : CTok) (M : Str) :
    genSearch containerMatchAt (Q ++ (ctokStr t ++ M)) =
      some (Q.length, ctokAct t, ctokKind t, none, (ctokStr t).length) := by
  rw [genSearch, genSearchFrom_append Q (ctokStr t ++ M) 0
    (fun j hj => by rw [drop_append_lt hj]; exact (hQ j hj (ctokStr t ++ M)).1)]
  rw [genSearchFrom_head (containerMatchAt_tok t M) (by cases t <;> simp [ctokStr, lit])]
  rw [Nat.zero_add]

/-- A safe suffix does not begin with any container token. -/
theorem tok_no_start {s : Str} (hs : noBadAt s) (t : CTok) :
    startsWithL (ctokStr t) s = false := by
  cases hsw : startsWithL (ctokStr t) s
  · rfl
  · have hd := startsWithL_decomp hsw
    have := containerMatchAt_tok t (s.drop (ctokStr t).length)
    rw [← hd] at this
    rw [hs.1] at this
    exact absurd this (by simp)

/-- First-occurrence replacement passes over a stretch of positions where
the needle does not start. -/
theorem replaceFirstL_skip {old new : Str} :
    ∀ (P T : Str), (∀ j, j < P.length → startsWithL old ((P ++ T).drop j) = false) →
      replaceFirstL (P ++ T) old new = P ++ replaceFirstL T old new := by
  intro P
  induction P with
  | nil => intro T _; simp
  | cons c P' ih =>
    intro T h
    have h0 : startsWithL old (c :: (P' ++ T)) = false := by
      have := h 0 (by simp)
      simpa using this
    show replaceFirstL (c :: (P' ++ T)) old new = _
    rw [replaceFirstL]
    rw [h0]
    simp only [Bool.and_false, Bool.false_eq_true, if_false]
    rw [ih T (fun j hj => by
      have := h (j + 1) (by simpa using Nat.succ_lt_succ hj)
      simpa using this)]
    rfl

/-- Every string is a prefix of itself extended. -/
theorem startsWithL_self_append : ∀ (p r : Str), startsWithL p (p ++ r) = true := by
  intro p r
  induction p with
  | nil => rfl
  | cons c cs ih => simp [startsWithL, ih]

/-- First-occurrence replacement of a needle anchored at the head. -/
theorem replaceFirstL_head {old new M : Str} (h : old ≠ []) :
    replaceFirstL (old ++ M) old new = new ++ M := by
  cases old with
  | nil => exact absurd rfl h
  | cons o os =>
    show replaceFirstL (o :: (os ++ M)) (o :: os) new = new ++ M
    rw [replaceFirstL]
    have hsw : startsWithL (o :: os) (o :: (os ++ M)) = true := by
      have := startsWithL_self_append (o :: os) M
      simpa using this
    rw [hsw]
    simp only [List.isEmpty, Bool.not_false, Bool.true_and, if_true]
    have : (o :: (os ++ M)).drop (o :: os).length = M := by
      show (os ++ M).drop os.length = M
      exact List.drop_left os M
    rw [this]

/-- Every character `natStrAux` emits is an ASCII digit. -/
theorem natStrAux_digits :
    ∀ (fuel n : Nat) (c : Char), c ∈ natStrAux fuel n → isDigitCh c = true := by
  intro fuel
  induction fuel with
  | zero => intro n c hc; simp [natStrAux] at hc
  | succ f ih =>
    intro n c hc
    match n, hc with
    | 0, hc => simp [natStrAux] at hc
    | n + 1, hc =>
      rw [natStrAux] at hc
      rcases List.mem_append.mp hc with h | h
      · exact ih _ c h
      · have he : c = Char.ofNat ('0'.toNat + (n + 1) % 10) := by simpa using h
        subst he
        have hlt : (n + 1) % 10 < 10 := Nat.mod_lt _ (by omega)
        set k := (n + 1) % 10 with hk
        interval_cases k <;> decide

/-- Every character of a printed natural number is an ASCII digit. -/
theorem natStr_digits {n : Nat} {c : Char} (hc : c ∈ natStr n) : isDigitCh c = true := by
  match n, hc with
  | 0, hc =>
    have : c = '0' := by simpa [natStr] using hc
    subst this; decide
  | m + 1, hc => exact natStrAux_digits (m + 1) (m + 1) c hc

/-- Digits are not `[`. -/
theorem natStr_noBr {n : Nat} {c : Char} (hc : c ∈ natStr n) : c ≠ '[' := by
  intro he
  subst he
  exact absurd (natStr_digits hc) (by decide)

/-- Digits are not `<`. -/
theorem natStr_noLt {n : Nat} {c : Char} (hc : c ∈ natStr n) : c ≠ '<' := by
  intro he
  subst he
  exact absurd (natStr_digits hc) (by decide)

/-- The text a container token is rewritten to in the loop (parameterless
tokens): start blocks render the card opening, end blocks close it, and
cells become the intermediate `CELL` markers. -/
def ctokRepl (bc : Nat) : CTok → Str
  | .sb => (blockStartReplacement (bc + 1) (parseBlockOptions none)).1
  | .eb => lit "</div></div>"
  | .sc => cellStartReplacement none
  | .ec => lit "[[CELL_END]]"

/-- The block counter after rewriting one token. -/
def ctokBc (bc : Nat) : CTok → Nat
  | .sb => bc + 1
  | _ => bc

/-- A parameterless start block renders the card opening and registers no
TOC title. -/
theorem blockStart_none_eq (bc : Nat) :
    blockStartReplacement (bc + 1) (parseBlockOptions none) = (ctokRepl bc CTok.sb, none) := by
  have h2 : (blockStartReplacement (bc + 1) (parseBlockOptions none)).2 = none := by
    simp [parseBlockOptions, blockStartReplacement]
  exact Prod.ext rfl h2

/-- The start-block replacement contains no `[`. -/
theorem sbRepl_noBr (bc : Nat) : ∀ c ∈ ctokRepl bc CTok.sb, c ≠ '[' := by
  have hA : ∀ x ∈ lit "<div class=\"card mb-2 box-shadow\" id=\"", x ≠ '[' := by decide
  have hB : ∀ x ∈ lit "block-", x ≠ '[' := by decide
  have hC : ∀ x ∈ lit "\">", x ≠ '[' := by decide
  have hD : ∀ x ∈ lit "<div class=\"card-body d-flex flex-column\">", x ≠ '[' := by decide
  intro c hc
  rw [ctokRepl] at hc
  have e : (blockStartReplacement (bc + 1) (parseBlockOptions none)).1 =
      lit "<div class=\"card mb-2 box-shadow\" id=\"" ++ (lit "block-" ++ natStr (bc + 1)) ++
        lit "\">" ++ [] ++ [] ++ lit "<div class=\"card-body d-flex flex-column\">" ++ [] := rfl
  rw [e] at hc
  simp only [List.append_nil, List.mem_append] at hc
  rcases hc with (((h | (h | h)) | h) | h)
  · exact hA c h
  · exact hB c h
  · exact natStr_noBr h
  · exact hC c h
  · exact hD c h

/-- Every replacement text is safe at every interior position. -/
theorem segOk_ctokRepl (bc : Nat) (t : CTok) : segOk (ctokRepl bc t) := by
  cases t with
  | sb => exact segOk_of_noBr (sbRepl_noBr bc)
  | eb =>
    show segOk (lit "</div></div>")
    exact segOk_of_noBr (by decide)
  | sc =>
    show segOk (cellStartReplacement none)
    exact segOk_of_segOkB (by decide)
  | ec =>
    show segOk (lit "[[CELL_END]]")
    exact segOk_of_segOkB (by decide)

/-- One iteration of the containers loop on a safe stretch followed by a
parameterless token: the token is rewritten in place and the loop continues
(or the ceiling error fires when the fuel runs out). -/
theorem loop_step (t : CTok) {Q : Str} (hQ : segOk Q) (M : Str) (fuel bc : Nat)
    (tls : List (Str × Str)) :
    containersLoopGo (fuel + 1) (Q ++ (ctokStr t ++ M)) bc tls =
      if fuel == 0 then .error (.preRender (lit "Too many container elements."))
      else containersLoopGo fuel (Q ++ (ctokRepl bc t ++ M)) (ctokBc bc t) tls := by
  have h1 := genSearch_family hQ t M
  have htokne : ctokStr t ≠ [] := by cases t <;> simp [ctokStr, lit]
  have hrepl : ∀ r : Str,
      replaceFirstL (Q ++ (ctokStr t ++ M)) (ctokStr t) r = Q ++ (r ++ M) := by
    intro r
    rw [replaceFirstL_skip Q (ctokStr t ++ M)
      (fun j hj => by rw [drop_append_lt hj]; exact tok_no_start (hQ j hj _) t)]
    rw [replaceFirstL_head htokne]
  have hBO : genSearch blockOptionsMatchAt Q = none := by
    apply genSearchFrom_none_intro
    intro j
    by_cases hj : j < Q.length
    · have := (hQ j hj []).2
      rwa [List.append_nil] at this
    · rw [List.drop_eq_nil_of_le (Nat.le_of_not_lt hj)]
      rfl
  cases t with
  | sb =>
    simp only [containersLoopGo, h1, ctokAct, ctokKind, List.drop_left, List.take_left,
      blockStart_none_eq bc, hrepl, ctokBc]
  | eb =>
    simp only [containersLoopGo, h1, ctokAct, ctokKind, List.take_left, List.drop_left,
      hBO, hrepl, ctokRepl, ctokBc]
  | sc =>
    simp only [containersLoopGo, h1, ctokAct, ctokKind, List.take_left, List.drop_left,
      hrepl, ctokRepl, ctokBc]
  | ec =>
    simp only [containersLoopGo, h1, ctokAct, ctokKind, List.take_left, List.drop_left,
      hrepl, ctokRepl, ctokBc]

/-- The containers loop on a family of parameterless tokens interleaved
with `[`-free gaps runs out of fuel whenever at least `fuel` tokens remain,
raising the iteration-ceiling error. -/
theorem loopGo_err :
    ∀ (fuel : Nat) (ts : List (Str × CTok)) (P R : Str) (bc : Nat)
      (tls : List (Str × Str)),
      segOk P → (∀ p ∈ ts, ∀ c ∈ p.1, c ≠ '[') → fuel ≤ ts.length →
      containersLoopGo fuel (P ++ (famCat ts ++ R)) bc tls =
        .error (.preRender (lit "Too many container elements.")) := by
  intro fuel
  induction fuel with
  | zero => intro ts P R bc tls _ _ _; rfl
  | succ f ih =>
    intro ts P R bc tls hP hg hle
    match ts, hle with
    | (g, t) :: ts', hle =>
      have hgap : segOk g := segOk_of_noBr (hg (g, t) (List.mem_cons_self _ _))
      have hQ : segOk (P ++ g) := segOk_append hP hgap
      have htext : P ++ (famCat ((g, t) :: ts') ++ R) =
          (P ++ g) ++ (ctokStr t ++ (famCat ts' ++ R)) := by
        simp [famCat, List.append_assoc]
      rw [htext, loop_step t hQ (famCat ts' ++ R) f bc tls]
      cases hf : (f == 0) with
      | true => simp [hf]
      | false =>
        simp only [hf, Bool.false_eq_true, if_false]
        have e2 : (P ++ g) ++ (ctokRepl bc t ++ (famCat ts' ++ R)) =
            ((P ++ g) ++ ctokRepl bc t) ++ (famCat ts' ++ R) := by
          simp [List.append_assoc]
        rw [e2]
        have hle' : f ≤ ts'.length := by
          simp only [List.length_cons] at hle
          omega
        exact ih ts' ((P ++ g) ++ ctokRepl bc t) R (ctokBc bc t) tls
          (segOk_append hQ (segOk_ctokRepl bc t))
          (fun p hp => hg p (List.mem_cons_of_mem _ hp)) hle'

/-- A family text is at least as long as its token count. -/
theorem famCat_len : ∀ ts : List (Str × CTok), ts.length ≤ (famCat ts).length := by
  intro ts
  induction ts with
  | nil => simp [famCat]
  | cons p rest ih =>
    obtain ⟨g, t⟩ := p
    have htok : 1 ≤ (ctokStr t).length := by cases t <;> decide
    simp only [famCat, List.length_append, List.length_cons]
    omega

/-- `re.finditer(container_regex, …)` on a family text reports exactly the
family's tokens in order. -/
theorem findAll_family :
    ∀ (ts : List (Str × CTok)) (R : Str) (fuel : Nat),
      (∀ p ∈ ts, ∀ c ∈ p.1, c ≠ '[') → (∀ c ∈ R, c ≠ '[') → ts.length < fuel →
      containerFindAll fuel (famCat ts ++ R) =
        ts.map (fun p => (ctokAct p.2, ctokKind p.2)) := by
  intro ts
  induction ts with
  | nil =>
    intro R fuel _ hR hlt
    match fuel, hlt with
    | f + 1, _ =>
      have hnone : genSearch containerMatchAt (famCat [] ++ R) = none := by
        apply genSearchFrom_none_intro
        intro j
        cases hd : (famCat [] ++ R).drop j with
        | nil => rfl
        | cons c cs =>
          have hcR : c ∈ R := by
            have h1 : c ∈ (famCat [] ++ R).drop j := by
              rw [hd]; exact List.mem_cons_self c cs
            have h2 := List.mem_of_mem_drop h1
            simpa [famCat] using h2
          exact (noBadAt_head_ne (hR c hcR) cs).1
      simp [containerFindAll, hnone]
  | cons p ts' ih =>
    obtain ⟨g, t⟩ := p
    intro R fuel hg hR hlt
    match fuel, hlt with
    | f + 1, hlt =>
      have hgap : segOk g := segOk_of_noBr (hg (g, t) (List.mem_cons_self _ _))
      have htext : famCat ((g, t) :: ts') ++ R =
          g ++ (ctokStr t ++ (famCat ts' ++ R)) := by
        simp [famCat, List.append_assoc]
      have h1 := genSearch_family hgap t (famCat ts' ++ R)
      have e : (g ++ (ctokStr t ++ (famCat ts' ++ R))).drop
          (g.length + (ctokStr t).length) = famCat ts' ++ R := by
        rw [← List.append_assoc]
        have h3 := List.drop_left (g ++ ctokStr t) (famCat ts' ++ R)
        rwa [List.length_append] at h3
      have hlt' : ts'.length < f := by
        simp only [List.length_cons] at hlt
        omega
      rw [htext]
      simp only [containerFindAll, h1, e, List.map_cons]
      rw [ih R f (fun q hq => hg q (List.mem_cons_of_mem _ hq)) hR hlt']

/-- Counting a token's (action, kind) signature in the mapped list counts
the token. -/
theorem count_map_sig (l : List CTok) (x : CTok) :
    (l.map (fun t => (ctokAct t, ctokKind t))).count (ctokAct x, ctokKind x) =
      l.count x := by
  induction l with
  | nil => rfl
  | cons a rest ih =>
    simp only [List.map_cons, List.count_cons, ih]
    congr 1
    cases a <;> cases x <;> decide

/-- The integrity check passes on a family text with balanced per-kind
token counts. -/
theorem checkTags_family (ts : List (Str × CTok)) (R : Str)
    (hg : ∀ p ∈ ts, ∀ c ∈ p.1, c ≠ '[') (hR : ∀ c ∈ R, c ≠ '[')
    (hb : (ts.map Prod.snd).count CTok.sb = (ts.map Prod.snd).count CTok.eb)
    (hc : (ts.map Prod.snd).count CTok.sc = (ts.map Prod.snd).count CTok.ec) :
    checkTagsIntegrity (famCat ts ++ R) = true := by
  have hlen : ts.length < (famCat ts ++ R).length + 1 := by
    have h := famCat_len ts
    simp only [List.length_append]
    omega
  have hfa := findAll_family ts R ((famCat ts ++ R).length + 1) hg hR hlen
  have hmap : (ts.map fun p => (ctokAct p.2, ctokKind p.2)) =
      (ts.map Prod.snd).map (fun t => (ctokAct t, ctokKind t)) := by
    rw [List.map_map]
    rfl
  simp only [checkTagsIntegrity, hfa, hmap]
  rw [show (CAction.startA, CKind.blockK) = (ctokAct CTok.sb, ctokKind CTok.sb) from rfl,
    show (CAction.endA, CKind.blockK) = (ctokAct CTok.eb, ctokKind CTok.eb) from rfl,
    show (CAction.startA, CKind.cellK) = (ctokAct CTok.sc, ctokKind CTok.sc) from rfl,
    show (CAction.endA, CKind.cellK) = (ctokAct CTok.ec, ctokKind CTok.ec) from rfl,
    count_map_sig, count_map_sig, count_map_sig, count_map_sig, hb, hc]
  simp

/-- A prefix test for a `<`-headed pattern fails on `<`-free text. -/
theorem startsWithL_lt_false {q s : Str} (h : ∀ c ∈ s, c ≠ '<') :
    startsWithL ('<' :: q) s = false := by
  cases s with
  | nil => rfl
  | cons c cs =>
    exact startsWithL_head_ne (fun e => h c (List.mem_cons_self c cs) e.symm)

/-- `<br\s*/?>` cannot match on `<`-free text. -/
theorem brTail_none_noLt {s : Str} (h : ∀ c ∈ s, c ≠ '<') : brTail s = none := by
  have e : lit "<br" = '<' :: lit "br" := rfl
  rw [brTail, e, startsWithL_lt_false h]
  simp

/-- The `<p>`-wrapped-tag pattern cannot match on `<`-free text. -/
theorem cleanSub1At_none_noLt {s : Str} (h : ∀ c ∈ s, c ≠ '<') :
    cleanSub1At s = none := by
  have e : lit "<p>" = '<' :: lit "p>" := rfl
  rw [cleanSub1At, e, startsWithL_lt_false h]
  simp

/-- The empty-paragraph pattern cannot match on `<`-free text. -/
theorem cleanSub2At_none_noLt {s : Str} (h : ∀ c ∈ s, c ≠ '<') :
    cleanSub2At s = none := by
  have e : lit "<p>" = '<' :: lit "p>" := rfl
  rw [cleanSub2At, e, startsWithL_lt_false h]
  simp

/-- One alternative of the clean-pass tag matchers only captures text
drawn from its input. -/
theorem cleanTagIf_mem {s : Str} (pre : Str) {tag r : Str}
    (h : (if startsWithL pre s then
            (if startsWithL (lit "]]") ((s.drop pre.length).dropWhile (· ≠ ']')) then
              some (pre ++ (s.drop pre.length).takeWhile (· ≠ ']') ++ lit "]]",
                    ((s.drop pre.length).dropWhile (· ≠ ']')).drop 2)
            else none)
          else none) = some (tag, r)) :
    ∀ c ∈ r, c ∈ s := by
  have hsub : ∀ c, c ∈ ((s.drop pre.length).dropWhile (· ≠ ']')).drop 2 → c ∈ s := by
    intro c hc
    have h1 := List.mem_of_mem_drop hc
    have h2 : c ∈ s.drop pre.length := (List.dropWhile_sublist _).subset h1
    exact List.mem_of_mem_drop h2
  split at h
  · split at h
    · injection h with hp
      have hr : r = ((s.drop pre.length).dropWhile (· ≠ ']')).drop 2 :=
        (congrArg Prod.snd hp).symm
      intro c hc
      rw [hr] at hc
      exact hsub c hc
    · exact absurd h (by simp)
  · exact absurd h (by simp)

/-- The tag group of the `<br>`-adjacency patterns only captures text
drawn from its input. -/
theorem cleanTag3At_mem {s tag r : Str} (hs : cleanTag3At s = some (tag, r)) :
    ∀ c ∈ r, c ∈ s := by
  simp only [cleanTag3At] at hs
  split at hs
  · rename_i heq
    injection hs with hs2
    subst hs2
    exact cleanTagIf_mem _ heq
  · split at hs
    · rename_i heq
      injection hs with hs2
      subst hs2
      exact cleanTagIf_mem _ heq
    · split at hs
      · rename_i heq
        injection hs with hs2
        subst hs2
        exact cleanTagIf_mem _ heq
      · exact cleanTagIf_mem _ hs

/-- The tag-then-`<br>` pattern cannot match on `<`-free text. -/
theorem cleanSub3At_none_noLt {s : Str} (h : ∀ c ∈ s, c ≠ '<') :
    cleanSub3At s = none := by
  cases hct : cleanTag3At s with
  | none => simp [cleanSub3At, hct]
  | some pr =>
    obtain ⟨tag, r1⟩ := pr
    have hr1 : ∀ c ∈ r1.dropWhile isPyWs, c ≠ '<' := by
      intro c hc
      have h1 : c ∈ r1 := (List.dropWhile_sublist _).subset hc
      exact h c (cleanTag3At_mem hct c h1)
    simp [cleanSub3At, hct, brTail_none_noLt hr1]

/-- The `<br>`-then-tag pattern cannot match on `<`-free text. -/
theorem cleanSub4At_none_noLt {s : Str} (h : ∀ c ∈ s, c ≠ '<') :
    cleanSub4At s = none := by
  simp [cleanSub4At, brTail_none_noLt h]

/-- The CKEditor cleanup pass is the identity on `<`-free text. -/
theorem clean_noLt_id {t : Str} (h : ∀ c ∈ t, c ≠ '<') :
    cleanTemplateTagWrappers t = t := by
  have hdrop : ∀ j, ∀ c ∈ t.drop j, c ≠ '<' :=
    fun j c hc => h c (List.mem_of_mem_drop hc)
  have e1 : reSub cleanSub1At t = t := reSub_id fun j => cleanSub1At_none_noLt (hdrop j)
  have e2 : reSub cleanSub2At t = t := reSub_id fun j => cleanSub2At_none_noLt (hdrop j)
  have e3 : reSub cleanSub3At t = t := reSub_id fun j => cleanSub3At_none_noLt (hdrop j)
  have e4 : reSub cleanSub4At t = t := reSub_id fun j => cleanSub4At_none_noLt (hdrop j)
  simp [cleanTemplateTagWrappers, e1, e2, e3, e4]

/-- Family texts with `<`-free gaps are `<`-free (tokens contain no `<`). -/
theorem famCat_noLt {ts : List (Str × CTok)}
    (hg : ∀ p ∈ ts, ∀ c ∈ p.1, c ≠ '<') : ∀ c ∈ famCat ts, c ≠ '<' := by
  induction ts with
  | nil => intro c hc; simp [famCat] at hc
  | cons p rest ih =>
    obtain ⟨g, t⟩ := p
    intro c hc
    simp only [famCat, List.mem_append] at hc
    rcases hc with h1 | h2 | h3
    · exact hg (g, t) (List.mem_cons_self _ _) c h1
    · have htok : ∀ x ∈ ctokStr t, x ≠ '<' := by cases t <;> decide
      exact htok c h2
    · exact ih (fun q hq => hg q (List.mem_cons_of_mem _ hq)) c h3

/-- C10: the container rewrite loop's ceiling counts every rewritten token,
not only unresolved ones.  Over texts made of parameterless container
tokens separated by gaps free of `[` and `<`, with per-kind balanced counts
(so the integrity check passes) but more than 50 tokens in total,
`create_containers` raises `PreRenderError("Too many container elements.")`
— the `IterationLimitExceeded` role — even though all tags are balanced
and well-formed. -/
theorem C10_ceiling_counts_every_token
    (ts : List (Str × CTok)) (R : Str)
    (hg : ∀ p ∈ ts, ∀ c ∈ p.1, c ≠ '[' ∧ c ≠ '<')
    (hR : ∀ c ∈ R, c ≠ '[' ∧ c ≠ '<')
    (hb : (ts.map Prod.snd).count CTok.sb = (ts.map Prod.snd).count CTok.eb)
    (hc : (ts.map Prod.snd).count CTok.sc = (ts.map Prod.snd).count CTok.ec)
    (hlen : 50 < ts.length) :
    createContainers (famCat ts ++ R) =
      .error (.preRender (lit "Too many container elements.")) := by
  have hg1 : ∀ p ∈ ts, ∀ c ∈ p.1, c ≠ '[' := fun p hp c hcc => (hg p hp c hcc).1
  have hR1 : ∀ c ∈ R, c ≠ '[' := fun c hcc => (hR c hcc).1
  have hint := checkTags_family ts R hg1 hR1 hb hc
  have hnoLt : ∀ c ∈ famCat ts ++ R, c ≠ '<' := by
    intro c hcc
    rcases List.mem_append.mp hcc with h1 | h2
    · exact famCat_noLt (fun p hp c2 hc2 => (hg p hp c2 hc2).2) c h1
    · exact (hR c h2).2
  have hclean := clean_noLt_id hnoLt
  have hloop : containersLoopGo 51 (famCat ts ++ R) 0 [] =
      .error (.preRender (lit "Too many container elements.")) := by
    have h5 := loopGo_err 51 ts [] R 0 []
      (fun j hj => absurd hj (by simp)) hg1 (by omega)
    simpa using h5
  simp [createContainers, hint, hclean, hloop]

/-- One balanced, well-nested group of the four token kinds. -/
def c10Unit : List (Str × CTok) :=
  [(lit " ", CTok.sb), (lit " ", CTok.eb), (lit " ", CTok.sc), (lit " ", CTok.ec)]

/-- Fifty-two balanced container tokens (13 well-nested groups). -/
def c10Toks : List (Str × CTok) := (List.replicate 13 c10Unit).flatten

/-- Witness for C10: 52 balanced, well-formed container tokens hit the
iteration ceiling. -/
theorem C10_ceiling_counts_every_token_witness :
    createContainers (famCat c10Toks ++ lit " end ") =
      .error (.preRender (lit "Too many container elements.")) :=
  C10_ceiling_counts_every_token c10Toks (lit " end ")
    (by decide) (by decide) (by decide) (by decide) (by decide)

/-- One unresolved code block, the unit of the C5 ceiling input. -/
def cbUnit : Str := lit "[[start_code]]" ++ lit "[[end_code]]"

/-- The HTML an empty, language-less code block is rewritten to. -/
def cbHtml : Str :=
  lit "<pre class=\"code-block\"><code class=\"language-" ++ lowerL (lit "text") ++
    lit "\">" ++ [] ++ lit "</code></pre>"

/-- No `[`-headed pattern starts inside a `[`-free stretch. -/
theorem head_br_no_start {P T q : Str} (hP : ∀ c ∈ P, c ≠ '[') (j : Nat)
    (hj : j < P.length) : startsWithL ('[' :: q) ((P ++ T).drop j) = false := by
  rw [drop_append_lt hj]
  cases hd : P.drop j with
  | nil =>
    have hlen := congrArg List.length hd
    simp [List.length_drop] at hlen
    omega
  | cons c cs =>
    have hc : c ∈ P := by
      have hmem : c ∈ P.drop j := by rw [hd]; exact List.mem_cons_self c cs
      exact List.mem_of_mem_drop hmem
    exact startsWithL_head_ne (fun e => hP c hc e.symm)

/-- The code-start regex fails at every position of a `[`-free stretch. -/
theorem codeStart_skip {P T : Str} (hP : ∀ c ∈ P, c ≠ '[') (j : Nat)
    (hj : j < P.length) : codeStartMatchAt ((P ++ T).drop j) = none := by
  have h1 : startsWithL ('[' :: lit "[start_code") ((P ++ T).drop j) = false :=
    head_br_no_start hP j hj
  have e : lit "[[start_code" = '[' :: lit "[start_code" := rfl
  simp [codeStartMatchAt, e, h1]

/-- The code-block replacement contains no `[`. -/
theorem cbHtml_noBr : ∀ c ∈ cbHtml, c ≠ '[' := by decide

/-- One iteration of the code-block loop on a `[`-free stretch followed by
an unresolved unit: the unit is rewritten and the counter increments (or
the ceiling error fires when the fuel runs out). -/
theorem cb_step {P : Str} (hP : ∀ c ∈ P, c ≠ '[') (X : Str) (fuel steps : Nat) :
    createCodeBlocksGo (fuel + 1) (P ++ (cbUnit ++ X)) steps =
      if fuel == 0 then
        (.error (.preRender (lit "Too many code block rendering iterations.")), steps + 1)
      else createCodeBlocksGo fuel (P ++ (cbHtml ++ X)) (steps + 1) := by
  have h1 : genSearch codeStartMatchAt (P ++ (cbUnit ++ X)) =
      some (P.length, (none : Option Str), 14) := by
    rw [genSearch, genSearchFrom_append P (cbUnit ++ X) 0
      (fun j hj => codeStart_skip hP j hj)]
    rw [genSearchFrom_head (show codeStartMatchAt (cbUnit ++ X) = some (none, 14) from rfl)
      (by simp [cbUnit, lit])]
    rw [Nat.zero_add]
  have hdropSP : (P ++ (cbUnit ++ X)).drop (P.length + 14) = lit "[[end_code]]" ++ X := by
    have e : P ++ (cbUnit ++ X) =
        (P ++ lit "[[start_code]]") ++ (lit "[[end_code]]" ++ X) := by
      simp [cbUnit, List.append_assoc]
    rw [e]
    have h2 := List.drop_left (P ++ lit "[[start_code]]") (lit "[[end_code]]" ++ X)
    rwa [List.length_append, show (lit "[[start_code]]").length = 14 from rfl] at h2
  have hfind : findSub (lit "[[end_code]]") (lit "[[end_code]]" ++ X) = some 0 := by
    have hm : litMatchAt (lit "[[end_code]]") (lit "[[end_code]]" ++ X) =
        some (lit "[[end_code]]").length := by
      have hsw : startsWithL (lit "[[end_code]]") (lit "[[end_code]]" ++ X) = true :=
        startsWithL_self_append _ _
      have hne : (!(lit "[[end_code]]").isEmpty) = true := rfl
      simp [litMatchAt, hsw, hne]
    rw [findSub, genSearch, genSearchFrom_head hm (by simp [lit])]
    rfl
  have hdropP : (P ++ (cbUnit ++ X)).drop P.length = cbUnit ++ X := List.drop_left P _
  have htake : (cbUnit ++ X).take (14 + 0 + 12) = cbUnit := by
    have h3 := List.take_left cbUnit X
    rwa [show cbUnit.length = 14 + 0 + 12 from rfl] at h3
  have hrepl : ∀ r : Str,
      replaceFirstL (P ++ (cbUnit ++ X)) cbUnit r = P ++ (r ++ X) := by
    intro r
    rw [replaceFirstL_skip P (cbUnit ++ X) (fun j hj => by
      have e : cbUnit = '[' :: lit "[start_code]][[end_code]]" := rfl
      rw [e]
      exact head_br_no_start hP j hj)]
    rw [replaceFirstL_head (by simp [cbUnit, lit])]
  simp only [createCodeBlocksGo, h1, hdropSP, hfind, hdropP, htake, List.take_zero, hrepl,
    cbHtml,
    show stripHtmlTags [] = [] from rfl, show htmlUnescape [] = [] from rfl,
    show stripL [] = [] from rfl, show htmlEscape [] = [] from rfl,
    show (lowerL (lit "text") == lit "json") = false from rfl,
    Bool.false_eq_true, if_false]

/-- The code-block loop on any number of unresolved units at least its
fuel exhausts the fuel and reports the ceiling error. -/
theorem cbGo_err :
    ∀ (fuel n : Nat) (P : Str) (steps : Nat), (∀ c ∈ P, c ≠ '[') → fuel ≤ n →
    (createCodeBlocksGo fuel (P ++ repStr n cbUnit) steps).1 =
      .error (.preRender (lit "Too many code block rendering iterations.")) := by
  intro fuel
  induction fuel with
  | zero => intro n P steps _ _; rfl
  | succ f ih =>
    intro n P steps hP hle
    match n, hle with
    | m + 1, hle =>
      have e : repStr (m + 1) cbUnit = cbUnit ++ repStr m cbUnit := rfl
      rw [e, cb_step hP (repStr m cbUnit) f steps]
      cases hf : (f == 0) with
      | true => simp [hf]
      | false =>
        simp only [hf, Bool.false_eq_true, if_false]
        have e2 : P ++ (cbHtml ++ repStr m cbUnit) = (P ++ cbHtml) ++ repStr m cbUnit := by
          simp [List.append_assoc]
        rw [e2]
        apply ih m (P ++ cbHtml) (steps + 1)
        · intro c hc
          rcases List.mem_append.mp hc with h | h
          · exact hP c h
          · exact cbHtml_noBr c h
        · omega

set_option maxRecDepth 40000 in
set_option maxHeartbeats 1000000 in
/-- C5: the claim that every pre-rendering pass terminates within the
iteration ceiling is right as a design contract but wrong of the code —
this is the code bug.  Conjuncts: (1) on the text that the containers loop
produces for the balanced input `[[end_cell]][[start_cell]]`, the
`_wrap_cells_in_rows` loop returns no result for any amount of fuel, i.e.
the Python original loops forever (its `pos` stops advancing and the loop
has no ceiling); (2) the embedded `create_containers` maps that divergence
to the model's `nonTermination` sentinel; (3) the code-block rewrite loop
is genuinely bounded by its ceiling (at most 51 iterations on any input);
and (4) an input with 51 code blocks, unresolved within the ceiling,
fails with `IterationLimitExceeded`
(`PreRenderError("Too many code block rendering iterations.")`) rather
than looping forever. -/
theorem C5_termination_and_ceiling :
    (∀ fuel acc, wrapOuterGo fuel (lit "[[CELL_END]]" ++ c5StuckText) acc = none) ∧
    createContainers (lit "[[end_cell]][[start_cell]]") = .error .nonTermination ∧
    (∀ t, codeBlockSteps t ≤ 51) ∧
    createCodeBlocks (repStr 51 (lit "[[start_code]][[end_code]]")) =
      .error (.preRender (lit "Too many code block rendering iterations.")) := by
  refine ⟨?_, ?_, ?_, ?_⟩
  · intro fuel acc
    cases fuel with
    | zero => rfl
    | succ n => exact wrapOuter_stuck n (acc ++ (lit "[[CELL_END]]" ++ c5StuckText).take 12)
  · rfl
  · intro t
    exact codeBlocksGo_steps_le 51 t 0
  · have e : lit "[[start_code]][[end_code]]" = cbUnit := rfl
    rw [createCodeBlocks, e]
    have h := cbGo_err 51 51 [] 0 (by simp) (Nat.le_refl 51)
    simpa using h
